import Mathlib

/-! Verification development for the Growth Matrix puzzle game core
(src/main.py).  The simulation state and the per-frame update functions
are embedded shallowly: Python floats become rationals, Python lists of
boxes become Lean lists, and Python object references (aliasing) become
indices into those lists.  Rendering handles (DesignerObjects owned by
the external `designer` library) and the cached per-frame geometry
derived from them are not part of the simulation state and are omitted. -/

namespace GrowthMatrix

/-- A 3d vector of rationals, modelling the Python 3-float lists used for
box sizes, centers and movement vectors. -/
structure Vec3 where
  x : ℚ
  y : ℚ
  z : ℚ
deriving DecidableEq

/-- Component access by integer index, mirroring Python list indexing on
the 3-float lists (0 = x, 1 = y, 2 = z). -/
def Vec3.get (v : Vec3) (i : Nat) : ℚ :=
  if i = 0 then v.x else if i = 1 then v.y else v.z

/-- The data fields of the Python `Box` dataclass (src/main.py lines
7-19).  The cached geometry (`points`, `projected_points`) is recomputed
every frame from `size` and `center`, and the render handles
(`vertices`, `lines`, `faces`) are external DesignerObjects; both are
omitted from the simulation state. -/
structure Box where
  color : String
  size : Vec3
  center : Vec3
  is_moving : Bool
  movement : Vec3
deriving DecidableEq

/-- Placeholder returned by list lookups at out-of-range indices.  The
embedded code only reads in-range indices (Python would raise at an
out-of-range index), and theorems carry the in-range hypotheses. -/
def dummyBox : Box :=
  { color := "", size := ⟨1, 1, 1⟩, center := ⟨0, 0, 0⟩,
    is_moving := false, movement := ⟨0, 0, 0⟩ }

/-- The simulation-relevant fields of the Python `World` dataclass
(src/main.py lines 29-42).  The Python field `boxes` is the nested list
`[[Red], [White], [Blue], [Green]]`; here the four collections are the
four named lists.  The Python fields `scaled_up_red_box` and
`previously_scaled_up_red_box` are object references into the red
collection (or `None`); here they are optional indices into `reds`.
UI-only fields (`pan_pos`, `buttons`) are omitted. -/
structure World where
  base : Box
  reds : List Box
  whites : List Box
  blues : List Box
  greens : List Box
  box_render_order : List Box
  angle : Vec3
  is_panning : Bool
  is_clicking_interactable : Bool
  scaled_up_red_box : Option Nat
  previously_scaled_up_red_box : Option Nat
  is_scaling : Bool

/-- Max size of red boxes (src/main.py line 77, `SCALE_MAX = 3.0`). -/
def SCALE_MAX : ℚ := 3

/-- Scale speed of red boxes (src/main.py line 78, `SCALE_SPEED = 0.2`). -/
def SCALE_SPEED : ℚ := 1/5

/-- `scale_points` (src/main.py lines 185-199): add `scale` to the three
size components and shift `center.y` down by half the y component. -/
def scale_points (box : Box) (scale : Vec3) : Box :=
  { box with
      size := ⟨box.size.x + scale.x, box.size.y + scale.y, box.size.z + scale.z⟩,
      center := { box.center with y := box.center.y - scale.y / 2 } }

/-- The count accumulated by `detect_win` (src/main.py lines 747-751):
for every green box, for every blue box whose center equals the green
box's center, one `True` is appended to `green_boxes_filled`.  The final
length of that list is the total number of matching (green, blue) pairs. -/
def detect_win_count (w : World) : Nat :=
  (w.greens.map (fun g => (w.blues.filter (fun b => b.center = g.center)).length)).sum

/-- The boolean result of `detect_win` (src/main.py line 754):
`len(green_boxes_filled) == len(world.boxes[3])`. -/
def detect_win (w : World) : Bool :=
  detect_win_count w = w.greens.length

/-- The mutation performed by `detect_win` (src/main.py line 752): every
blue box whose center equals some green box's center is recolored
"purple".  The match test reads only centers, so the in-loop mutation
order does not affect which boxes are recolored. -/
def detect_win_blues (w : World) : List Box :=
  w.blues.map (fun b =>
    if w.greens.any (fun g => b.center = g.center) then { b with color := "purple" } else b)

/-- The red, white and blue collections in the iteration order of
`check_box_collision` (src/main.py lines 674-675: `enumerate` order with
indices 0, 1, 2 admitted). -/
def boxesRWB (w : World) : List Box :=
  w.reds ++ w.whites ++ w.blues

/-- The `other_axis` computation of `check_box_collision` (src/main.py
lines 670-672). -/
def other_axis (axis : Nat) : Nat :=
  if axis = 0 then 2 else 0

/-- The adjacency test of `check_box_collision` (src/main.py lines
677-678): the first box of the red/white/blue collections lying exactly
one grid cell from `checked` along `axis` (offset `-direction`), at the
same coordinate on the other horizontal axis. -/
def adjacentBox (w : World) (checked : Box) (axis : Nat) (direction : ℤ) : Option Box :=
  (boxesRWB w).find? (fun b =>
    checked.center.get axis = b.center.get axis + (direction : ℚ) ∧
    checked.center.get (other_axis axis) = b.center.get (other_axis axis))

/-- `check_box_collision` (src/main.py lines 653-687): probe outward from
`checked` along `axis`; a white or red neighbor blocks (`false`), a
neighbor of any other color (blue, or purple once filled) is probed
through recursively, and no neighbor means unblocked (`true`).  The
Python recursion always terminates because each step moves one further
grid cell along the axis through the finite box list; the embedding
makes this explicit with a fuel parameter and returns `none` only when
the fuel is exhausted before the probe finishes. -/
def check_box_collision : Nat → World → Box → Nat → ℤ → Option Bool
  | 0, _, _, _, _ => none
  | fuel + 1, w, checked, axis, direction =>
    match adjacentBox w checked axis direction with
    | none => some true
    | some b =>
      if b.color = "white" ∨ b.color = "red" then some false
      else check_box_collision fuel w b axis direction

/-- Distinctness of the color strings used by the game, as rewrite
lemmas for evaluating the color tests in concrete runs. -/
theorem blue_ne_red : ("blue" : String) ≠ "red" := by decide

theorem blue_ne_white : ("blue" : String) ≠ "white" := by decide

theorem red_ne_white : ("red" : String) ≠ "white" := by decide

theorem red_ne_blue : ("red" : String) ≠ "blue" := by decide

theorem white_ne_red : ("white" : String) ≠ "red" := by decide

theorem white_ne_blue : ("white" : String) ≠ "blue" := by decide

theorem purple_ne_red : ("purple" : String) ≠ "red" := by decide

theorem purple_ne_blue : ("purple" : String) ≠ "blue" := by decide

theorem purple_ne_white : ("purple" : String) ≠ "white" := by decide

theorem empty_ne_red : ("" : String) ≠ "red" := by decide

theorem empty_ne_blue : ("" : String) ≠ "blue" := by decide

/-- Python's built-in `round` on a float: round half to even. -/
def pyRound (q : ℚ) : ℤ :=
  let f := ⌊q⌋
  let r := q - f
  if r < 1/2 then f
  else if 1/2 < r then f + 1
  else if f % 2 = 0 then f else f + 1

/-- Python `round` as a rational (the snapped coordinate values). -/
def pyRoundQ (q : ℚ) : ℚ := (pyRound q : ℚ)

/-- The `pushing_box` argument of `move_blue_box`: either the growing red
box (whose fields `move_blue_box` never mutates, so it is passed by
value) or a blue box, which is aliased into the blue collection and is
therefore passed as an index so that mutations through the loop are
visible through the reference, as in Python. -/
inductive Pusher where
  | red (b : Box)
  | blue (i : Nat)
deriving DecidableEq

/-- Dereference a `Pusher` against the current blue collection. -/
def getPusher (bs : List Box) : Pusher → Box
  | .red b => b
  | .blue i => bs.getD i dummyBox

/-- The not-yet-moving branch of `move_blue_box` (src/main.py lines
611-639): decide whether the pusher `pb` sets the blue box `b1` (whose
color has already been reset to "blue") in motion, and with which
movement vector. -/
def mbbStart (pb b1 : Box) : Box :=
  if pb.color = "red" then
    if pb.center.x = b1.center.x ∧ pb.size.z > 1 then
      if pb.center.z = b1.center.z - 1 then
        { b1 with is_moving := true, movement := { b1.movement with z := SCALE_SPEED / 2 } }
      else if pb.center.z = b1.center.z + 1 then
        { b1 with is_moving := true, movement := { b1.movement with z := -(SCALE_SPEED / 2) } }
      else b1
    else if pb.center.z = b1.center.z ∧ pb.size.x > 1 then
      if pb.center.x = b1.center.x - 1 then
        { b1 with is_moving := true, movement := { b1.movement with x := SCALE_SPEED / 2 } }
      else if pb.center.x = b1.center.x + 1 then
        { b1 with is_moving := true, movement := { b1.movement with x := -(SCALE_SPEED / 2) } }
      else b1
    else b1
  else if pb.color = "blue" then
    let b2 :=
      if pyRoundQ pb.center.x = b1.center.x ∧
          (pyRoundQ pb.center.z = b1.center.z - 1 ∨ pyRoundQ pb.center.z = b1.center.z + 1) then
        { b1 with is_moving := true, movement := { b1.movement with z := pb.movement.z } }
      else b1
    if pyRoundQ pb.center.z = b2.center.z ∧
        (pyRoundQ pb.center.x = b2.center.x - 1 ∨ pyRoundQ pb.center.x = b2.center.x + 1) then
      { b2 with is_moving := true, movement := { b2.movement with x := pb.movement.x } }
    else b2
  else b1

/-- The integration of a moving blue box (src/main.py lines 645-646):
`center += movement` on the two horizontal axes. -/
def mbbMove (b : Box) : Box :=
  { b with center := ⟨b.center.x + b.movement.x, b.center.y, b.center.z + b.movement.z⟩ }

/-- Stopping a moving blue box (src/main.py lines 648-651): clear the
movement state and snap the horizontal coordinates with Python `round`. -/
def mbbStop (b : Box) : Box :=
  { b with is_moving := false, movement := ⟨0, 0, 0⟩,
           center := ⟨pyRoundQ b.center.x, b.center.y, pyRoundQ b.center.z⟩ }

/-- The not-yet-moving branch of the `move_blue_box` loop (src/main.py
lines 609-639) at index `k`: reset the box's color to "blue" (an
in-place write, visible to an aliased pusher before the adjacency tests
read it), then apply `mbbStart`. -/
def mbbStartState (p : Pusher) (bs : List Box) (k : Nat) : List Box :=
  let b := bs.getD k dummyBox
  let b1 : Box := { b with color := "blue" }
  let bs0 := bs.set k b1
  bs0.set k (mbbStart (getPusher bs0 p) b1)

/-- The already-moving branch of the `move_blue_box` loop (src/main.py
lines 644-651) at index `k`: integrate the movement, then stop and snap
if the (re-dereferenced) pusher has reached `SCALE_MAX` in y or is a
stopped blue box. -/
def mbbMoveState (p : Pusher) (bs : List Box) (k : Nat) : List Box :=
  let b1 := mbbMove (bs.getD k dummyBox)
  let bs1 := bs.set k b1
  let pb := getPusher bs1 p
  if SCALE_MAX ≤ pb.size.y ∨ (pb.color = "blue" ∧ pb.is_moving = false) then
    bs1.set k (mbbStop b1)
  else bs1

/-- The `for blue_box in world.boxes[2]` loop of `move_blue_box`
(src/main.py lines 608-651) over the remaining indices `ks`.  A chained
push (line 642, `move_blue_box(world, blue_box)`) re-enters the loop at
index 0 with the newly moving box as pusher, spending one unit of
`fuel`, so `fuel` bounds the depth of the Python recursion below this
call while the sequential loop itself spends none. -/
def mbbLoop : Nat → Pusher → List Box → List Nat → Option (List Box)
  | _, _, bs, [] => some bs
  | fuel, p, bs, k :: ks =>
    if (bs.getD k dummyBox).is_moving = false then
      let bs1 := mbbStartState p bs k
      if (bs1.getD k dummyBox).is_moving then
        match hf : fuel with
        | 0 => none
        | f + 1 =>
          match mbbLoop f (Pusher.blue k) bs1 (List.range bs1.length) with
          | none => none
          | some bs2 => mbbLoop fuel p bs2 ks
      else
        mbbLoop fuel p bs1 ks
    else
      mbbLoop fuel p (mbbMoveState p bs k) ks
termination_by fuel _ _ ks => (fuel, ks.length)
decreasing_by
  all_goals simp_wf
  all_goals try subst hf
  all_goals first
    | (apply Prod.Lex.left; omega)
    | (apply Prod.Lex.right; omega)

/-- `move_blue_box` (src/main.py lines 596-651).  A result `some bs`
certifies that the Python recursion terminates within nested call depth
`fuel` below the top-level call on this input. -/
def mbbGo : Nat → List Box → Pusher → Option (List Box)
  | 0, _, _ => none
  | fuel + 1, bs, p => mbbLoop fuel p bs (List.range bs.length)

/-- The `directions` list computed by `main` (src/main.py lines 407-412);
index 1 is never read by `scale_red_box`. -/
structure Directions where
  d0 : Bool
  d1 : Bool
  d2 : Bool

/-- `scale_red_box` (src/main.py lines 559-594): while the selected red
box is below `SCALE_MAX` in y, grow it by `SCALE_SPEED` on y and on each
axis allowed by `directions`, and shrink every component of the
previously selected red box that is still above 1; once the selected box
has reached `SCALE_MAX` in y, clear `is_scaling`. -/
def scale_red_box (w : World) (directions : Directions) : World :=
  let scale_speed : Vec3 :=
    ⟨if directions.d0 then SCALE_SPEED else 0, SCALE_SPEED,
     if directions.d2 then SCALE_SPEED else 0⟩
  match w.scaled_up_red_box with
  | none => w
  | some i =>
    let box := w.reds.getD i dummyBox
    if box.size.y < SCALE_MAX then
      let w1 := { w with reds := w.reds.set i (scale_points box scale_speed) }
      match w1.previously_scaled_up_red_box with
      | none => w1
      | some j =>
        let pbox := w1.reds.getD j dummyBox
        let scale_down_speed : Vec3 :=
          ⟨if 1 < pbox.size.x then -SCALE_SPEED else 0,
           if 1 < pbox.size.y then -SCALE_SPEED else 0,
           if 1 < pbox.size.z then -SCALE_SPEED else 0⟩
        { w1 with reds := w1.reds.set j (scale_points pbox scale_down_speed) }
    else { w with is_scaling := false }

/-- Python float modulo `a % m`, which for the positive divisors used by
the renderer is `a - m * ⌊a / m⌋`. -/
def qmod (a m : ℚ) : ℚ := a - m * ⌊a / m⌋

/-- The insertion index `i` computed for one box by the octant loops of
`calculate_render_order` (src/main.py lines 443-503): each of the four
yaw bands, when active, adds the count of already-placed boxes that the
band's rule orders before the new box. -/
def renderCount (piQ : ℚ) (wangle : Vec3) (box : Box) (l : List Box) : Nat :=
  let a := qmod wangle.y (piQ * 2)
  let u := piQ * 2 / 8
  (if u ≤ a ∧ a < u * 3 then
    l.countP (fun rb =>
      decide (box.center.x > rb.center.x ∨
        (box.center.x = rb.center.x ∧
          (if a > u * 2 then box.center.z > rb.center.z else box.center.z < rb.center.z))))
  else 0)
  + (if u * 3 ≤ a ∧ a < u * 5 then
    l.countP (fun rb =>
      decide (box.center.z > rb.center.z ∨
        (box.center.z = rb.center.z ∧
          (if a > u * 4 then box.center.x < rb.center.x else box.center.x > rb.center.x))))
  else 0)
  + (if u * 5 ≤ a ∧ a < u * 7 then
    l.countP (fun rb =>
      decide (box.center.x < rb.center.x ∨
        (box.center.x = rb.center.x ∧
          (if a > u * 6 then box.center.z < rb.center.z else box.center.z > rb.center.z))))
  else 0)
  + (if u * 7 ≤ a ∨ a < u then
    l.countP (fun rb =>
      decide (box.center.z < rb.center.z ∨
        (box.center.z = rb.center.z ∧
          (if a < piQ / 2 then box.center.x > rb.center.x else box.center.x < rb.center.x))))
  else 0)

/-- Python `list.insert(i, x)`: insert before index `i`; an index past
the end appends (Python never drops the element). -/
def pyInsert {α : Type} (i : Nat) (x : α) (l : List α) : List α :=
  List.insertIdx (min i l.length) x l

/-- `calculate_render_order` (src/main.py lines 422-514): insertion-sort
all boxes of the four collections by the octant rule of the current yaw,
then append or prepend the base box depending on pitch and yaw.  `piQ`
stands for the float constant `math.pi`. -/
def calculate_render_order (piQ : ℚ) (w : World) : List Box :=
  let sorted := (w.reds ++ w.whites ++ w.blues ++ w.greens).foldl
    (fun l box => pyInsert (renderCount piQ w.angle box l) box l) []
  let ax := qmod w.angle.x (piQ * 2)
  let ay := qmod w.angle.y (piQ * 2)
  if ax > piQ ∧ (ay ≤ piQ / 2 ∨ ay > piQ * 3 / 2) then sorted ++ [w.base]
  else if ax < piQ ∧ (piQ / 2 < ay ∧ ay < piQ * 3 / 2) then sorted ++ [w.base]
  else w.base :: sorted

/-- The body of `main` (src/main.py lines 383-420) restricted to the
simulation state: recompute the render order, then, when `is_scaling`
holds, compute the two axis gates from four collision probes, push blue
boxes, and scale the red boxes.  Pure redrawing (`draw_box`) and button
hover effects touch no simulation state and are omitted.  Python writes
the recomputed render order into the world before running the probes;
the probes, the push and the scaling read only the box collections and
never the render order, so the embedding threads the recomputed order
separately and installs it in the result.  `piQ` stands for `math.pi`;
the result is `none` only when a probe or the push recursion runs out
of `fuel`, or when `is_scaling` holds with no scaled-up box (where
Python would raise). -/
def frame_step (piQ : ℚ) (fuel : Nat) (w : World) : Option World :=
  let ro := calculate_render_order piQ w
  if w.is_scaling then
    match w.scaled_up_red_box with
    | none => none
    | some i =>
      let box := w.reds.getD i dummyBox
      match check_box_collision fuel w box 0 1, check_box_collision fuel w box 0 (-1),
            check_box_collision fuel w box 2 1, check_box_collision fuel w box 2 (-1) with
      | some c1, some c2, some c3, some c4 =>
        let directions : Directions := ⟨c1 && c2, true, c3 && c4⟩
        match mbbGo fuel w.blues (Pusher.red box) with
        | none => none
        | some blues' =>
          some (scale_red_box { w with box_render_order := ro, blues := blues' } directions)
      | _, _, _, _ => none
  else some { w with box_render_order := ro }

/-- One full update tick of the game scene: the registered callbacks
`end_level` (whose `detect_win` recolors matched blue boxes; the scene
change on a win is handled externally) followed by `main` (src/main.py
lines 1048-1049). -/
def game_frame (piQ : ℚ) (fuel : Nat) (w : World) : Option World :=
  frame_step piQ fuel { w with blues := detect_win_blues w }

/-- The closest-clicked computation of `red_box_interaction` (src/main.py
lines 536-542): scan the render order, repeatedly overwriting the result
with any clicked box equal to the scanned box, so the render-order-last
clicked box wins; the scan starts from `boxes_clicked[0]`.  Python
compares boxes with dataclass field equality; the omitted cached
geometry is a function of `size` and `center`. -/
def closest_clicked (w : World) (boxes_clicked : List Box) : Box :=
  w.box_render_order.foldl
    (fun acc box => boxes_clicked.foldl (fun acc2 bc => if box = bc then bc else acc2) acc)
    (boxes_clicked.getD 0 dummyBox)

/-- The box referenced by `world.scaled_up_red_box`, if any. -/
def scaledUpBox (w : World) : Option Box :=
  w.scaled_up_red_box.map (fun i => w.reds.getD i dummyBox)

/-- `red_box_interaction` (src/main.py lines 516-557), taking the list
of boxes whose faces the external mouse hit-test reports as clicked.
Python stores an object reference in `scaled_up_red_box`; the embedding
stores the index of the clicked box in the red collection. -/
def red_box_interaction (w : World) (boxes_clicked : List Box) : World :=
  if boxes_clicked ≠ [] then
    let closest := closest_clicked w boxes_clicked
    if closest.color = "red" ∧ w.is_scaling = false then
      if closest.size.y = 1 ∧ some closest ≠ scaledUpBox w then
        { w with is_clicking_interactable := true,
                 previously_scaled_up_red_box := w.scaled_up_red_box,
                 scaled_up_red_box := w.reds.findIdx? (fun b => b = closest),
                 is_scaling := true }
      else { w with is_clicking_interactable := false }
    else w
  else { w with is_clicking_interactable := false }

/-- The data fields of `create_box` (src/main.py lines 236-288): type
"base" is recolored "white"; the movement state starts cleared. -/
def create_box (size position : Vec3) (type : String) : Box :=
  { color := if type = "base" then "white" else type,
    size := size, center := position, is_moving := false, movement := ⟨0, 0, 0⟩ }

/-- The boxes of one color produced by the grid scan of `create_level`
(src/main.py lines 794-807): row `i` of the reversed grid and column `j`
place a unit box at `(j - base_x // 2, 0, i - base_z // 2)`. -/
def levelBoxes (level : List (List Char)) (base_x base_z : ℕ) (c : Char) (color : String) :
    List Box :=
  (level.reverse.enum.map (fun ir =>
    ir.2.enum.filterMap (fun jc =>
      if jc.2 = c then
        some (create_box ⟨1, 1, 1⟩
          ⟨(jc.1 : ℚ) - (base_x / 2 : ℕ), 0, (ir.1 : ℚ) - (base_z / 2 : ℕ)⟩ color)
      else none))).flatten

/-- `create_level` (src/main.py lines 771-811): build the initial world
from the level grid.  Python's `m.floor(base_x/2)` on an integer width
is natural division by 2. -/
def create_level (level : List (List Char)) (base_x base_z : ℕ) : World :=
  { base := create_box ⟨(base_x : ℚ), 1, (base_z : ℚ)⟩ ⟨0, 1, 0⟩ "base",
    reds := levelBoxes level base_x base_z 'r' "red",
    whites := levelBoxes level base_x base_z 'w' "white",
    blues := levelBoxes level base_x base_z 'b' "blue",
    greens := levelBoxes level base_x base_z 'g' "green",
    box_render_order := [],
    angle := ⟨3/10, 3/10, 0⟩,
    is_panning := false, is_clicking_interactable := false,
    scaled_up_red_box := none, previously_scaled_up_red_box := none,
    is_scaling := false }

/-- Every box owned by a world: the base and the four collections. -/
def allBoxes (w : World) : List Box :=
  w.base :: (w.reds ++ w.whites ++ w.blues ++ w.greens)

/-- One registered game-scene event, as it affects the embedded state:
an update tick (`end_level` then `main`, src/main.py lines 1048-1049), a
click (`red_box_interaction` with the externally computed hit list, line
1043), or a camera pan (`pan_start`/`pan_world`/`pan_end`, lines
689-735, which only write `angle` and the panning flags; the written
angle depends on external mouse input and is arbitrary here). -/
inductive Step (piQ : ℚ) : World → World → Prop where
  | frame (fuel : Nat) {w w' : World} : game_frame piQ fuel w = some w' → Step piQ w w'
  | click (bc : List Box) (w : World) : Step piQ w (red_box_interaction w bc)
  | pan (a : Vec3) (b : Bool) (w : World) : Step piQ w { w with angle := a, is_panning := b }

/-- The worlds reachable from `w0` through game-scene events. -/
inductive ReachableFrom (piQ : ℚ) (w0 : World) : World → Prop where
  | refl : ReachableFrom piQ w0 w0
  | step {w w' : World} : ReachableFrom piQ w0 w → Step piQ w w' → ReachableFrom piQ w0 w'

/-! ## Theorems -/

theorem pyInsert_perm {α : Type} (i : Nat) (x : α) (l : List α) :
    List.Perm (pyInsert i x l) (x :: l) :=
  List.perm_insertIdx x l (Nat.min_le_right i l.length)

theorem insert_fold_perm (f : List Box → Box → Nat) (boxes l : List Box) :
    List.Perm (boxes.foldl (fun acc box => pyInsert (f acc box) box acc) l) (boxes ++ l) := by
  induction boxes generalizing l with
  | nil => simp
  | cons b bs ih =>
    simp only [List.foldl_cons, List.cons_append]
    refine List.Perm.trans (ih _) (List.Perm.trans ?_ List.perm_middle)
    exact List.Perm.append_left bs (pyInsert_perm _ _ _)

/-- C8: for every world and every yaw angle (and any rational standing
for the float constant `math.pi`), `calculate_render_order` produces a
permutation of all boxes: every box of the four color collections
exactly once, plus the base box exactly once (appended or prepended),
and nothing else. -/
theorem calculate_render_order_is_permutation (piQ : ℚ) (w : World) :
    List.Perm (calculate_render_order piQ w)
      (w.base :: (w.reds ++ w.whites ++ w.blues ++ w.greens)) := by
  have h := insert_fold_perm (fun l box => renderCount piQ w.angle box l)
    (w.reds ++ w.whites ++ w.blues ++ w.greens) []
  rw [List.append_nil] at h
  simp only [calculate_render_order]
  split
  · exact List.Perm.trans (h.append_right [w.base]) (List.perm_append_singleton _ _)
  · split
    · exact List.Perm.trans (h.append_right [w.base]) (List.perm_append_singleton _ _)
    · exact List.Perm.cons w.base h

theorem sum_eq_length_iff {l : List ℕ} (h : ∀ x ∈ l, x ≤ 1) :
    l.sum = l.length ↔ ∀ x ∈ l, x = 1 := by
  induction l with
  | nil => simp
  | cons a t ih =>
    have ha := h a (List.mem_cons_self a t)
    have hts : t.sum ≤ t.length := by
      have hsl := List.sum_le_card_nsmul t 1 (fun x hx => h x (List.mem_cons_of_mem a hx))
      simpa using hsl
    have iht := ih (fun x hx => h x (List.mem_cons_of_mem a hx))
    simp only [List.sum_cons, List.length_cons, List.mem_cons]
    constructor
    · intro he
      have hae : a = 1 ∧ t.sum = t.length := by omega
      rintro x (rfl | hx)
      · exact hae.1
      · exact (iht.mp hae.2) x hx
    · intro hall
      have h1 : a = 1 := hall a (Or.inl rfl)
      have h2 : t.sum = t.length := iht.mpr (fun x hx => hall x (Or.inr hx))
      omega

theorem filter_center_length_le_one {blues : List Box}
    (hd : blues.Pairwise (fun a b => a.center ≠ b.center)) (c : Vec3) :
    (blues.filter (fun b => b.center = c)).length ≤ 1 := by
  have hp : (blues.filter (fun b => b.center = c)).Pairwise (fun a b => a.center ≠ b.center) :=
    hd.filter _
  rcases hfl : blues.filter (fun b => b.center = c) with _ | ⟨x, _ | ⟨y, t⟩⟩
  · simp [hfl]
  · simp [hfl]
  · exfalso
    rw [hfl] at hp
    have hxy : x.center ≠ y.center := (List.pairwise_cons.mp hp).1 y (List.mem_cons_self y t)
    have hx : x ∈ blues.filter (fun b => b.center = c) := by rw [hfl]; exact List.mem_cons_self ..
    have hy : y ∈ blues.filter (fun b => b.center = c) := by
      rw [hfl]; exact List.mem_cons_of_mem x (List.mem_cons_self y t)
    have hxc : x.center = c := by simpa using (List.mem_filter.mp hx).2
    have hyc : y.center = c := by simpa using (List.mem_filter.mp hy).2
    exact hxy (hxc.trans hyc.symm)

theorem filter_center_length_eq_one_iff {blues : List Box}
    (hd : blues.Pairwise (fun a b => a.center ≠ b.center)) (c : Vec3) :
    (blues.filter (fun b => b.center = c)).length = 1 ↔ ∃ b ∈ blues, b.center = c := by
  constructor
  · intro h1
    rcases hfl : blues.filter (fun b => b.center = c) with _ | ⟨x, t⟩
    · rw [hfl] at h1; simp at h1
    · have hx : x ∈ blues.filter (fun b => b.center = c) := by rw [hfl]; exact List.mem_cons_self ..
      exact ⟨x, (List.mem_filter.mp hx).1, by simpa using (List.mem_filter.mp hx).2⟩
  · rintro ⟨b, hb, hbc⟩
    have hmem : b ∈ blues.filter (fun bx => bx.center = c) := List.mem_filter.mpr ⟨hb, by simpa⟩
    have hpos : 0 < (blues.filter (fun bx => bx.center = c)).length := List.length_pos.mpr
      (List.ne_nil_of_mem hmem)
    have := filter_center_length_le_one hd c
    omega

/-- C1 (amended): when the blue boxes have pairwise distinct centers —
as they do whenever they occupy distinct grid cells — `detect_win`
returns true iff every green box's center equals some blue box's center.
Without that proviso the claim fails, because `detect_win` counts
matching (green, blue) pairs rather than matched greens; see the
counterexample. -/
theorem detect_win_iff_all_greens_matched (w : World)
    (hd : w.blues.Pairwise (fun a b => a.center ≠ b.center)) :
    detect_win w = true ↔ ∀ g ∈ w.greens, ∃ b ∈ w.blues, b.center = g.center := by
  have hle : ∀ x ∈ w.greens.map (fun g => (w.blues.filter (fun b => b.center = g.center)).length),
      x ≤ 1 := by
    intro x hx
    rcases List.mem_map.mp hx with ⟨g, _, rfl⟩
    exact filter_center_length_le_one hd g.center
  rw [detect_win, decide_eq_true_eq, detect_win_count]
  have hlen : w.greens.length =
      (w.greens.map (fun g => (w.blues.filter (fun b => b.center = g.center)).length)).length := by
    simp
  rw [hlen, sum_eq_length_iff hle]
  constructor
  · intro hall g hg
    exact (filter_center_length_eq_one_iff hd g.center).mp
      (hall _ (List.mem_map.mpr ⟨g, hg, rfl⟩))
  · intro hall x hx
    rcases List.mem_map.mp hx with ⟨g, hg, rfl⟩
    exact (filter_center_length_eq_one_iff hd g.center).mpr (hall g hg)

/-- A world with two green boxes and two coincident blue boxes on the
first green's cell: `detect_win` counts two matching pairs and reports a
win although the second green box is uncovered. -/
def detectWinCEWorld : World :=
  { base := create_box ⟨9, 1, 9⟩ ⟨0, 1, 0⟩ "base",
    reds := [], whites := [],
    blues := [create_box ⟨1, 1, 1⟩ ⟨0, 0, 0⟩ "blue", create_box ⟨1, 1, 1⟩ ⟨0, 0, 0⟩ "blue"],
    greens := [create_box ⟨1, 1, 1⟩ ⟨0, 0, 0⟩ "green", create_box ⟨1, 1, 1⟩ ⟨3, 0, 3⟩ "green"],
    box_render_order := [], angle := ⟨3/10, 3/10, 0⟩,
    is_panning := false, is_clicking_interactable := false,
    scaled_up_red_box := none, previously_scaled_up_red_box := none, is_scaling := false }

/-- C1 (counterexample): in `detectWinCEWorld` the second green box has
no blue box on its cell, yet `detect_win` returns true, refuting the
claim that it returns false whenever some green box is unmatched. -/
theorem detect_win_counterexample :
    detect_win detectWinCEWorld = true ∧
      ∃ g ∈ detectWinCEWorld.greens, ∀ b ∈ detectWinCEWorld.blues, b.center ≠ g.center := by
  constructor
  · decide
  · refine ⟨create_box ⟨1, 1, 1⟩ ⟨3, 0, 3⟩ "green", by decide, by decide⟩

/-- C1 (witness): the amended equivalence applied to a world of one
green box and one matching blue box. -/
theorem detect_win_iff_witness :
    detect_win
      { base := create_box ⟨9, 1, 9⟩ ⟨0, 1, 0⟩ "base",
        reds := [], whites := [],
        blues := [create_box ⟨1, 1, 1⟩ ⟨2, 0, 2⟩ "blue"],
        greens := [create_box ⟨1, 1, 1⟩ ⟨2, 0, 2⟩ "green"],
        box_render_order := [], angle := ⟨3/10, 3/10, 0⟩,
        is_panning := false, is_clicking_interactable := false,
        scaled_up_red_box := none, previously_scaled_up_red_box := none,
        is_scaling := false } = true := by
  rw [detect_win_iff_all_greens_matched _ (by decide)]
  decide

theorem getD_set_ne (l : List Box) {i j : Nat} (x d : Box) (h : i ≠ j) :
    (l.set i x).getD j d = l.getD j d := by
  simp [List.getD_eq_getElem?_getD, List.getElem?_set_ne h]

theorem getD_set_self (l : List Box) {i : Nat} (x d : Box) (h : i < l.length) :
    (l.set i x).getD i d = x := by
  simp [List.getD_eq_getElem?_getD, List.getElem?_set_self h]

theorem check_box_collision_of_none {fuel : Nat} {w : World} {c : Box} {axis : Nat} {dir : ℤ}
    (h : adjacentBox w c axis dir = none) :
    check_box_collision (fuel + 1) w c axis dir = some true := by
  simp [check_box_collision, h]

/-- C2: the probe of `check_box_collision` walks one grid cell at a time
along the axis: the box found by the adjacency search sits exactly one
cell away along `axis` and on the same coordinate on the other
horizontal axis; the probe returns blocked (`some false`) exactly when
that first-found box is white or red, recurses onward from the found box
when it is of any other color (blue, or purple once filled), and returns
unblocked (`some true`) when no box is adjacent; consequently, on a box
with no adjacent box in any of the four probed directions, it returns
unblocked for both directions on both axes. -/
theorem check_box_collision_spec :
    (∀ (fuel : Nat) (w : World) (c : Box) (axis : Nat) (dir : ℤ) (b : Box),
        adjacentBox w c axis dir = some b →
          (c.center.get axis = b.center.get axis + (dir : ℚ) ∧
            c.center.get (other_axis axis) = b.center.get (other_axis axis)) ∧
          ((b.color = "white" ∨ b.color = "red") →
            check_box_collision (fuel + 1) w c axis dir = some false) ∧
          (¬(b.color = "white" ∨ b.color = "red") →
            check_box_collision (fuel + 1) w c axis dir =
              check_box_collision fuel w b axis dir)) ∧
    (∀ (fuel : Nat) (w : World) (c : Box) (axis : Nat) (dir : ℤ),
        adjacentBox w c axis dir = none →
          check_box_collision (fuel + 1) w c axis dir = some true) ∧
    (∀ (fuel : Nat) (w : World) (c : Box),
        adjacentBox w c 0 1 = none → adjacentBox w c 0 (-1) = none →
        adjacentBox w c 2 1 = none → adjacentBox w c 2 (-1) = none →
          check_box_collision (fuel + 1) w c 0 1 = some true ∧
          check_box_collision (fuel + 1) w c 0 (-1) = some true ∧
          check_box_collision (fuel + 1) w c 2 1 = some true ∧
          check_box_collision (fuel + 1) w c 2 (-1) = some true) := by
  refine ⟨?_, ?_, ?_⟩
  · intro fuel w c axis dir b h
    have hp := List.find?_some h
    rw [decide_eq_true_eq] at hp
    refine ⟨hp, ?_, ?_⟩
    · intro hcol
      simp [check_box_collision, h, hcol]
    · intro hcol
      have hw : (b.color = "white" ∨ b.color = "red") = False := eq_false hcol
      simp only [check_box_collision, h]
      rw [if_neg hcol]
  · intro fuel w c axis dir h
    exact check_box_collision_of_none h
  · intro fuel w c h1 h2 h3 h4
    exact ⟨check_box_collision_of_none h1, check_box_collision_of_none h2,
      check_box_collision_of_none h3, check_box_collision_of_none h4⟩

/-- C2 (witness): the spec applied to an isolated red box at the origin
in an otherwise empty world: all four probes are unblocked. -/
theorem check_box_collision_spec_witness :
    check_box_collision 1
      { base := create_box ⟨9, 1, 9⟩ ⟨0, 1, 0⟩ "base",
        reds := [create_box ⟨1, 1, 1⟩ ⟨0, 0, 0⟩ "red"], whites := [], blues := [], greens := [],
        box_render_order := [], angle := ⟨3/10, 3/10, 0⟩,
        is_panning := false, is_clicking_interactable := false,
        scaled_up_red_box := none, previously_scaled_up_red_box := none, is_scaling := false }
      (create_box ⟨1, 1, 1⟩ ⟨0, 0, 0⟩ "red") 0 1 = some true := by
  refine (check_box_collision_spec.2.2 0 _ _ ?_ ?_ ?_ ?_).1 <;>
    norm_num [adjacentBox, boxesRWB, other_axis, Vec3.get, create_box, List.find?]

/-- C10: with a red box as the closest clicked box,
`red_box_interaction` leaves the growth-selection state
(`scaled_up_red_box`, `previously_scaled_up_red_box`, `is_scaling`)
unchanged whenever a growth is already in progress, or the clicked box's
size.y differs from 1 (e.g. it is mid-shrink), or the clicked box is
already the currently selected scaled-up red box. -/
theorem red_box_interaction_no_restart (w : World) (bc : List Box)
    (hred : (closest_clicked w bc).color = "red")
    (h : w.is_scaling = true ∨ (closest_clicked w bc).size.y ≠ 1 ∨
      scaledUpBox w = some (closest_clicked w bc)) :
    (red_box_interaction w bc).scaled_up_red_box = w.scaled_up_red_box ∧
    (red_box_interaction w bc).previously_scaled_up_red_box = w.previously_scaled_up_red_box ∧
    (red_box_interaction w bc).is_scaling = w.is_scaling := by
  unfold red_box_interaction
  by_cases hbc : bc ≠ []
  · rw [if_pos hbc]
    rcases h with hs | hsz | hsel
    · rw [if_neg (by simp [hs])]
      exact ⟨rfl, rfl, rfl⟩
    · by_cases hs : (closest_clicked w bc).color = "red" ∧ w.is_scaling = false
      · rw [if_pos hs, if_neg (by simp [hsz])]
        exact ⟨rfl, rfl, rfl⟩
      · rw [if_neg hs]
        exact ⟨rfl, rfl, rfl⟩
    · by_cases hs : (closest_clicked w bc).color = "red" ∧ w.is_scaling = false
      · rw [if_pos hs, if_neg (by simp [hsel])]
        exact ⟨rfl, rfl, rfl⟩
      · rw [if_neg hs]
        exact ⟨rfl, rfl, rfl⟩
  · rw [if_neg hbc]
    exact ⟨rfl, rfl, rfl⟩

/-- C10 (witness): clicking a red box while a growth is in progress
changes none of the three selection fields. -/
theorem red_box_interaction_no_restart_witness :
    (red_box_interaction
        { base := create_box ⟨9, 1, 9⟩ ⟨0, 1, 0⟩ "base",
          reds := [create_box ⟨1, 1, 1⟩ ⟨2, 0, 2⟩ "red"], whites := [], blues := [], greens := [],
          box_render_order := [], angle := ⟨3/10, 3/10, 0⟩,
          is_panning := false, is_clicking_interactable := false,
          scaled_up_red_box := none, previously_scaled_up_red_box := none, is_scaling := true }
        [create_box ⟨1, 1, 1⟩ ⟨2, 0, 2⟩ "red"]).scaled_up_red_box = none := by
  have h := red_box_interaction_no_restart
    { base := create_box ⟨9, 1, 9⟩ ⟨0, 1, 0⟩ "base",
      reds := [create_box ⟨1, 1, 1⟩ ⟨2, 0, 2⟩ "red"], whites := [], blues := [], greens := [],
      box_render_order := [], angle := ⟨3/10, 3/10, 0⟩,
      is_panning := false, is_clicking_interactable := false,
      scaled_up_red_box := none, previously_scaled_up_red_box := none, is_scaling := true }
    [create_box ⟨1, 1, 1⟩ ⟨2, 0, 2⟩ "red"] (by decide) (Or.inl rfl)
  exact h.1

/-- C6 (amended): while the selected red box is still growing
(size.y < SCALE_MAX), each `scale_red_box` step decrements every size
component of the previously selected red box that is still above 1 by
SCALE_SPEED and leaves the other components unchanged — in particular a
fully shrunk previous box no longer changes — but the
`previously_scaled_up_red_box` reference is never cleared by
`scale_red_box`; it persists until overwritten by a later click or a
world rebuild. -/
theorem scale_red_box_shrink_step :
    (∀ (w : World) (d : Directions),
      (scale_red_box w d).previously_scaled_up_red_box = w.previously_scaled_up_red_box) ∧
    (∀ (w : World) (d : Directions) (i j : Nat),
      w.scaled_up_red_box = some i →
      (w.reds.getD i dummyBox).size.y < SCALE_MAX →
      w.previously_scaled_up_red_box = some j → i ≠ j → j < w.reds.length →
      ((scale_red_box w d).reds.getD j dummyBox).size.x =
          (w.reds.getD j dummyBox).size.x -
            (if 1 < (w.reds.getD j dummyBox).size.x then SCALE_SPEED else 0) ∧
      ((scale_red_box w d).reds.getD j dummyBox).size.y =
          (w.reds.getD j dummyBox).size.y -
            (if 1 < (w.reds.getD j dummyBox).size.y then SCALE_SPEED else 0) ∧
      ((scale_red_box w d).reds.getD j dummyBox).size.z =
          (w.reds.getD j dummyBox).size.z -
            (if 1 < (w.reds.getD j dummyBox).size.z then SCALE_SPEED else 0)) := by
  constructor
  · intro w d
    unfold scale_red_box
    rcases w.scaled_up_red_box with _ | i
    · rfl
    · dsimp only
      split
      · rcases hj : w.previously_scaled_up_red_box with _ | j <;> simp [hj]
      · rfl
  · intro w d i j hi hgrow hj hij hjlen
    unfold scale_red_box
    rw [hi]
    dsimp only
    rw [if_pos hgrow, hj]
    dsimp only
    rw [getD_set_self _ _ _ (by simpa using hjlen), getD_set_ne _ _ _ hij]
    unfold scale_points
    dsimp only
    refine ⟨?_, ?_, ?_⟩ <;> split <;> ring

/-- C6 (counterexample): a world whose previously selected red box has
fully shrunk back to the unit cube; after the `scale_red_box` step the
`previously_scaled_up_red_box` reference still points at it instead of
being cleared. -/
theorem scale_red_box_never_clears_reference :
    ((scale_red_box
        { base := create_box ⟨9, 1, 9⟩ ⟨0, 1, 0⟩ "base",
          reds := [create_box ⟨6/5, 6/5, 6/5⟩ ⟨0, -1/10, 0⟩ "red",
                   create_box ⟨1, 1, 1⟩ ⟨3, 0, 3⟩ "red"],
          whites := [], blues := [], greens := [],
          box_render_order := [], angle := ⟨3/10, 3/10, 0⟩,
          is_panning := false, is_clicking_interactable := false,
          scaled_up_red_box := some 0, previously_scaled_up_red_box := some 1,
          is_scaling := true }
        ⟨true, true, true⟩).previously_scaled_up_red_box = some 1) ∧
    (create_box ⟨1, 1, 1⟩ ⟨3, 0, 3⟩ "red").size = ⟨1, 1, 1⟩ := by
  refine ⟨?_, rfl⟩
  norm_num [scale_red_box, scale_points, create_box, SCALE_MAX, SCALE_SPEED]

/-- C5 (amended): a purple recoloring is not permanent state: whenever
`move_blue_box` runs (every `is_scaling` frame), it resets the color of
every box of the blue collection that is not moving back to "blue" —
including purple ones.  What holds instead is that `detect_win`, run by
`end_level` at the start of every frame, recolors purple every blue box
whose center coincides with some green box's center, so a stationary
matched box is purple again by the time it is rendered. -/
theorem detect_win_recolors_matched (w : World) (i : Nat) (hlen : i < w.blues.length)
    (hmatch : ∃ g ∈ w.greens, (w.blues.getD i dummyBox).center = g.center) :
    ((detect_win_blues w).getD i dummyBox).color = "purple" := by
  rcases hmatch with ⟨g, hg, hc⟩
  rw [detect_win_blues, List.getD_eq_getElem?_getD, List.getElem?_map,
    List.getElem?_eq_getElem hlen]
  have hany : w.greens.any (fun g' => (w.blues[i]).center = g'.center) = true := by
    rw [List.any_eq_true]
    refine ⟨g, hg, ?_⟩
    rw [decide_eq_true_eq]
    rw [List.getD_eq_getElem?_getD, List.getElem?_eq_getElem hlen] at hc
    exact hc
  simp only [Option.map_some', Option.getD_some]
  rw [if_pos (by simpa using hany)]

/-- C5 (amended, witness): the recoloring applied to a world with one
blue box sitting on the single green cell. -/
theorem detect_win_recolors_matched_witness :
    ((detect_win_blues
        { base := create_box ⟨9, 1, 9⟩ ⟨0, 1, 0⟩ "base",
          reds := [], whites := [],
          blues := [create_box ⟨1, 1, 1⟩ ⟨2, 0, 2⟩ "blue"],
          greens := [create_box ⟨1, 1, 1⟩ ⟨2, 0, 2⟩ "green"],
          box_render_order := [], angle := ⟨3/10, 3/10, 0⟩,
          is_panning := false, is_clicking_interactable := false,
          scaled_up_red_box := none, previously_scaled_up_red_box := none,
          is_scaling := false }).getD 0 dummyBox).color = "purple" :=
  detect_win_recolors_matched _ 0 (by decide)
    ⟨create_box ⟨1, 1, 1⟩ ⟨2, 0, 2⟩ "green", by decide, by decide⟩

/-- The one `main` frame of the `is_scaling` branch, written out: the
probes (evaluated on the world before the render-order write, which they
do not read), the blue-box push, and the red-box scaling. -/
theorem frame_step_eq (piQ : ℚ) (fuel : Nat) (w : World) (i : Nat)
    (hsc : w.is_scaling = true) (hi : w.scaled_up_red_box = some i)
    (d1 d2 d3 d4 : Bool)
    (hc1 : check_box_collision fuel w (w.reds.getD i dummyBox) 0 1 = some d1)
    (hc2 : check_box_collision fuel w (w.reds.getD i dummyBox) 0 (-1) = some d2)
    (hc3 : check_box_collision fuel w (w.reds.getD i dummyBox) 2 1 = some d3)
    (hc4 : check_box_collision fuel w (w.reds.getD i dummyBox) 2 (-1) = some d4)
    (blues' : List Box)
    (hm : mbbGo fuel w.blues (Pusher.red (w.reds.getD i dummyBox)) = some blues') :
    frame_step piQ fuel w =
      some (scale_red_box
        { w with box_render_order := calculate_render_order piQ w, blues := blues' }
        ⟨d1 && d2, true, d3 && d4⟩) := by
  rw [frame_step]
  dsimp only
  rw [if_pos hsc, hi]
  dsimp only
  rw [hc1, hc2, hc3, hc4]
  dsimp only
  rw [hm]

/-- The world of the C5 counterexample: a growth in progress on an
isolated red box, and one already-purple blue box resting far away on
the green cell it covered. -/
def purpleCEWorld : World :=
  { base := create_box ⟨9, 1, 9⟩ ⟨0, 1, 0⟩ "base",
    reds := [{ color := "red", size := ⟨1, 1, 1⟩, center := ⟨0, 0, 0⟩,
               is_moving := false, movement := ⟨0, 0, 0⟩ }],
    whites := [],
    blues := [{ color := "purple", size := ⟨1, 1, 1⟩, center := ⟨3, 0, 3⟩,
                is_moving := false, movement := ⟨0, 0, 0⟩ }],
    greens := [create_box ⟨1, 1, 1⟩ ⟨3, 0, 3⟩ "green"],
    box_render_order := [], angle := ⟨3/10, 3/10, 0⟩,
    is_panning := false, is_clicking_interactable := false,
    scaled_up_red_box := some 0, previously_scaled_up_red_box := none,
    is_scaling := true }

/-- C5 (counterexample): in `purpleCEWorld` the blue-collection box is
purple and not moving; one `main` frame step (through `move_blue_box`,
src/main.py line 610) sets its color back to "blue", so the per-frame
update relation does change a purple box's color back to blue. -/
theorem frame_step_unpurples :
    (purpleCEWorld.blues.getD 0 dummyBox).color = "purple" ∧
    (frame_step 3 4 purpleCEWorld).map (fun w' => (w'.blues.getD 0 dummyBox).color) =
      some "blue" := by
  refine ⟨by decide, ?_⟩
  have hadj : ∀ (dir : ℤ), dir = 1 ∨ dir = -1 → ∀ axis, axis = 0 ∨ axis = 2 →
      adjacentBox purpleCEWorld (purpleCEWorld.reds.getD 0 dummyBox) axis dir = none := by
    rintro dir (rfl | rfl) axis (rfl | rfl) <;>
      norm_num [adjacentBox, boxesRWB, other_axis, Vec3.get, purpleCEWorld, create_box,
        List.find?, dummyBox]
  have hmbb : mbbGo 4 purpleCEWorld.blues (Pusher.red (purpleCEWorld.reds.getD 0 dummyBox)) =
      some [{ color := "blue", size := ⟨1, 1, 1⟩, center := ⟨3, 0, 3⟩,
              is_moving := false, movement := ⟨0, 0, 0⟩ }] := by
    simp only [mbbGo, purpleCEWorld]
    repeat
      rw [mbbLoop.eq_def]
      norm_num [mbbStartState, mbbStart, mbbMove, mbbStop, mbbMoveState, getPusher, pyRoundQ,
        pyRound, SCALE_SPEED, SCALE_MAX, dummyBox, List.range_succ, blue_ne_red, blue_ne_white,
        red_ne_blue, red_ne_white, white_ne_red, white_ne_blue, purple_ne_red, purple_ne_blue,
        purple_ne_white, empty_ne_red, empty_ne_blue]
    rw [mbbLoop.eq_def]
  rw [frame_step_eq 3 4 purpleCEWorld 0 rfl rfl true true true true
    (check_box_collision_of_none (hadj 1 (Or.inl rfl) 0 (Or.inl rfl)))
    (check_box_collision_of_none (hadj (-1) (Or.inr rfl) 0 (Or.inl rfl)))
    (check_box_collision_of_none (hadj 1 (Or.inl rfl) 2 (Or.inr rfl)))
    (check_box_collision_of_none (hadj (-1) (Or.inr rfl) 2 (Or.inr rfl)))
    _ hmbb]
  norm_num [scale_red_box, scale_points, purpleCEWorld, SCALE_MAX, SCALE_SPEED, dummyBox]

/-- C6 (witness): the shrink step applied to a previously selected box
of size (9/5, 1, 9/5): the components above 1 drop by SCALE_SPEED to
8/5, the component at 1 stays, and the reference survives. -/
theorem scale_red_box_shrink_witness :
    (((scale_red_box
        { base := create_box ⟨9, 1, 9⟩ ⟨0, 1, 0⟩ "base",
          reds := [create_box ⟨1, 6/5, 1⟩ ⟨0, -1/10, 0⟩ "red",
                   create_box ⟨9/5, 1, 9/5⟩ ⟨3, 0, 3⟩ "red"],
          whites := [], blues := [], greens := [],
          box_render_order := [], angle := ⟨3/10, 3/10, 0⟩,
          is_panning := false, is_clicking_interactable := false,
          scaled_up_red_box := some 0, previously_scaled_up_red_box := some 1,
          is_scaling := true }
        ⟨false, true, false⟩).reds.getD 1 dummyBox).size.x = 8/5) ∧
    (((scale_red_box
        { base := create_box ⟨9, 1, 9⟩ ⟨0, 1, 0⟩ "base",
          reds := [create_box ⟨1, 6/5, 1⟩ ⟨0, -1/10, 0⟩ "red",
                   create_box ⟨9/5, 1, 9/5⟩ ⟨3, 0, 3⟩ "red"],
          whites := [], blues := [], greens := [],
          box_render_order := [], angle := ⟨3/10, 3/10, 0⟩,
          is_panning := false, is_clicking_interactable := false,
          scaled_up_red_box := some 0, previously_scaled_up_red_box := some 1,
          is_scaling := true }
        ⟨false, true, false⟩).reds.getD 1 dummyBox).size.y = 1) := by
  have h := scale_red_box_shrink_step.2
    { base := create_box ⟨9, 1, 9⟩ ⟨0, 1, 0⟩ "base",
      reds := [create_box ⟨1, 6/5, 1⟩ ⟨0, -1/10, 0⟩ "red",
               create_box ⟨9/5, 1, 9/5⟩ ⟨3, 0, 3⟩ "red"],
      whites := [], blues := [], greens := [],
      box_render_order := [], angle := ⟨3/10, 3/10, 0⟩,
      is_panning := false, is_clicking_interactable := false,
      scaled_up_red_box := some 0, previously_scaled_up_red_box := some 1,
      is_scaling := true }
    ⟨false, true, false⟩ 0 1 rfl
    (by norm_num [create_box, dummyBox, SCALE_MAX]) rfl (by decide) (by decide)
  rw [h.1, h.2.1]
  norm_num [create_box, dummyBox, SCALE_SPEED]

/-- C3: one `is_scaling` frame in which the selected red box `i` is
still below `SCALE_MAX` in y grows it by exactly `SCALE_SPEED` on y,
grows it on x (respectively z) by `SCALE_SPEED` iff both the +1 and -1
probes on that axis returned unblocked, and moves `center.y` by half the
y delta so the bottom stays anchored; and once `size.y` has reached
`SCALE_MAX`, the frame leaves every red box unchanged and clears
`is_scaling`. -/
theorem frame_growth_step (piQ : ℚ) (fuel : Nat) (w : World) (i : Nat)
    (d1 d2 d3 d4 : Bool) (blues' : List Box)
    (hsc : w.is_scaling = true) (hi : w.scaled_up_red_box = some i)
    (hilen : i < w.reds.length) (hprev : w.previously_scaled_up_red_box ≠ some i)
    (hc1 : check_box_collision fuel w (w.reds.getD i dummyBox) 0 1 = some d1)
    (hc2 : check_box_collision fuel w (w.reds.getD i dummyBox) 0 (-1) = some d2)
    (hc3 : check_box_collision fuel w (w.reds.getD i dummyBox) 2 1 = some d3)
    (hc4 : check_box_collision fuel w (w.reds.getD i dummyBox) 2 (-1) = some d4)
    (hm : mbbGo fuel w.blues (Pusher.red (w.reds.getD i dummyBox)) = some blues') :
    frame_step piQ fuel w =
      some (scale_red_box
        { w with box_render_order := calculate_render_order piQ w, blues := blues' }
        ⟨d1 && d2, true, d3 && d4⟩) ∧
    ((w.reds.getD i dummyBox).size.y < SCALE_MAX →
      ∀ w', frame_step piQ fuel w = some w' →
        (w'.reds.getD i dummyBox).size.y = (w.reds.getD i dummyBox).size.y + SCALE_SPEED ∧
        (w'.reds.getD i dummyBox).size.x = (w.reds.getD i dummyBox).size.x +
          (if d1 && d2 then SCALE_SPEED else 0) ∧
        (w'.reds.getD i dummyBox).size.z = (w.reds.getD i dummyBox).size.z +
          (if d3 && d4 then SCALE_SPEED else 0) ∧
        (w'.reds.getD i dummyBox).center.y = (w.reds.getD i dummyBox).center.y -
          SCALE_SPEED / 2) ∧
    (¬(w.reds.getD i dummyBox).size.y < SCALE_MAX →
      ∀ w', frame_step piQ fuel w = some w' →
        w'.reds = w.reds ∧ w'.is_scaling = false) := by
  have hfs := frame_step_eq piQ fuel w i hsc hi d1 d2 d3 d4 hc1 hc2 hc3 hc4 blues' hm
  refine ⟨hfs, ?_, ?_⟩
  · intro hlt w' hw'
    rw [hfs] at hw'
    injection hw' with hw'
    subst hw'
    rw [scale_red_box]
    dsimp only
    rw [hi]
    dsimp only
    rw [if_pos hlt]
    rcases hp : w.previously_scaled_up_red_box with _ | j
    · dsimp only
      rw [getD_set_self _ _ _ (by simpa using hilen)]
      rw [scale_points]
      refine ⟨rfl, rfl, rfl, rfl⟩
    · have hj : j ≠ i := fun hji => hprev (by rw [hp, hji])
      dsimp only
      rw [getD_set_ne _ _ _ hj, getD_set_self _ _ _ (by simpa using hilen)]
      rw [scale_points]
      refine ⟨rfl, rfl, rfl, rfl⟩
  · intro hge w' hw'
    rw [hfs] at hw'
    injection hw' with hw'
    subst hw'
    rw [scale_red_box]
    dsimp only
    rw [hi]
    dsimp only
    rw [if_neg hge]
    exact ⟨rfl, rfl⟩

/-- C3 (witness): one growth frame on an isolated unit red box: both
axes are unblocked, so all of x, y, z grow to 6/5 and center.y drops by
1/10. -/
theorem frame_growth_step_witness :
    (frame_step 3 1
      { base := create_box ⟨9, 1, 9⟩ ⟨0, 1, 0⟩ "base",
        reds := [{ color := "red", size := ⟨1, 1, 1⟩, center := ⟨0, 0, 0⟩,
                   is_moving := false, movement := ⟨0, 0, 0⟩ }],
        whites := [], blues := [], greens := [],
        box_render_order := [], angle := ⟨3/10, 3/10, 0⟩,
        is_panning := false, is_clicking_interactable := false,
        scaled_up_red_box := some 0, previously_scaled_up_red_box := none,
        is_scaling := true }).map
      (fun w' => ((w'.reds.getD 0 dummyBox).size.x, (w'.reds.getD 0 dummyBox).size.y,
        (w'.reds.getD 0 dummyBox).size.z, (w'.reds.getD 0 dummyBox).center.y)) =
    some (6/5, 6/5, 6/5, -(1/10)) := by
  have hadj : ∀ (dir : ℤ), dir = 1 ∨ dir = -1 → ∀ axis, axis = 0 ∨ axis = 2 →
      adjacentBox
        { base := create_box ⟨9, 1, 9⟩ ⟨0, 1, 0⟩ "base",
          reds := [{ color := "red", size := ⟨1, 1, 1⟩, center := ⟨0, 0, 0⟩,
                     is_moving := false, movement := ⟨0, 0, 0⟩ }],
          whites := [], blues := [], greens := [],
          box_render_order := [], angle := ⟨3/10, 3/10, 0⟩,
          is_panning := false, is_clicking_interactable := false,
          scaled_up_red_box := some 0, previously_scaled_up_red_box := none,
          is_scaling := true }
        ({ color := "red", size := ⟨1, 1, 1⟩, center := ⟨0, 0, 0⟩,
           is_moving := false, movement := ⟨0, 0, 0⟩ } : Box) axis dir = none := by
    rintro dir (rfl | rfl) axis (rfl | rfl) <;>
      norm_num [adjacentBox, boxesRWB, other_axis, Vec3.get, create_box, List.find?, dummyBox]
  have h := frame_growth_step 3 1
    { base := create_box ⟨9, 1, 9⟩ ⟨0, 1, 0⟩ "base",
      reds := [{ color := "red", size := ⟨1, 1, 1⟩, center := ⟨0, 0, 0⟩,
                 is_moving := false, movement := ⟨0, 0, 0⟩ }],
      whites := [], blues := [], greens := [],
      box_render_order := [], angle := ⟨3/10, 3/10, 0⟩,
      is_panning := false, is_clicking_interactable := false,
      scaled_up_red_box := some 0, previously_scaled_up_red_box := none,
      is_scaling := true }
    0 true true true true [] rfl rfl (by decide) (by decide)
    (check_box_collision_of_none (hadj 1 (Or.inl rfl) 0 (Or.inl rfl)))
    (check_box_collision_of_none (hadj (-1) (Or.inr rfl) 0 (Or.inl rfl)))
    (check_box_collision_of_none (hadj 1 (Or.inl rfl) 2 (Or.inr rfl)))
    (check_box_collision_of_none (hadj (-1) (Or.inr rfl) 2 (Or.inr rfl)))
    (by simp only [mbbGo, List.length_nil, List.range_zero]; rw [mbbLoop.eq_def])
  have h2 := h.2.1 (by norm_num [dummyBox, SCALE_MAX]) _ h.1
  rw [h.1]
  rw [Option.map_some']
  rw [h2.1, h2.2.1, h2.2.2.1, h2.2.2.2]
  norm_num [dummyBox, SCALE_SPEED]

/-- C4 (counterexample): a straight chain of two blue boxes at z = 1 and
z = 2 pushed (in +z) by a red box that has just started growing.  On the
frame the chain starts moving, both members get movement z = 1/10 (half
the growth delta), but each center is advanced twice — by the nested
`move_blue_box` passes that rescan already-moving boxes — ending at
z = 6/5 and z = 11/5, not at the claimed single-movement advance
1 + 1/10. -/
theorem move_blue_box_double_advance :
    mbbGo 4
      [{ color := "blue", size := ⟨1, 1, 1⟩, center := ⟨0, 0, 1⟩,
         is_moving := false, movement := ⟨0, 0, 0⟩ },
       { color := "blue", size := ⟨1, 1, 1⟩, center := ⟨0, 0, 2⟩,
         is_moving := false, movement := ⟨0, 0, 0⟩ }]
      (Pusher.red { color := "red", size := ⟨1, 6/5, 6/5⟩, center := ⟨0, -1/10, 0⟩,
                    is_moving := false, movement := ⟨0, 0, 0⟩ }) =
      some [{ color := "blue", size := ⟨1, 1, 1⟩, center := ⟨0, 0, 6/5⟩,
              is_moving := true, movement := ⟨0, 0, 1/10⟩ },
            { color := "blue", size := ⟨1, 1, 1⟩, center := ⟨0, 0, 11/5⟩,
              is_moving := true, movement := ⟨0, 0, 1/10⟩ }] ∧
    (6/5 : ℚ) ≠ 1 + 1/10 := by
  refine ⟨?_, by norm_num⟩
  simp only [mbbGo]
  repeat
    rw [mbbLoop.eq_def]
    norm_num [mbbStartState, mbbStart, mbbMove, mbbStop, mbbMoveState, getPusher, pyRoundQ,
      pyRound, SCALE_SPEED, SCALE_MAX, dummyBox, List.range_succ, blue_ne_red, blue_ne_white,
      red_ne_blue, red_ne_white, white_ne_red, white_ne_blue, purple_ne_red, purple_ne_blue,
      purple_ne_white, empty_ne_red, empty_ne_blue]
  rw [mbbLoop.eq_def]

/-- C4 (amended): in the two-box chain, (i) on the frame the push
starts, both members start moving in the same frame and get the same
velocity, half the growth delta directed away from the pusher — but each
is advanced once per `move_blue_box` pass that scans it, here twice;
(ii) on a later frame with the red box still below max size, each member
advances by exactly its movement; (iii) on the frame the red box has
reached `SCALE_MAX` in y, both members stop in that same frame with x
and z snapped to the nearest integer (Python round, half to even). -/
theorem blue_chain_push_frames :
    (mbbGo 4
      [{ color := "blue", size := ⟨1, 1, 1⟩, center := ⟨0, 0, 1⟩,
         is_moving := false, movement := ⟨0, 0, 0⟩ },
       { color := "blue", size := ⟨1, 1, 1⟩, center := ⟨0, 0, 2⟩,
         is_moving := false, movement := ⟨0, 0, 0⟩ }]
      (Pusher.red { color := "red", size := ⟨1, 6/5, 6/5⟩, center := ⟨0, -1/10, 0⟩,
                    is_moving := false, movement := ⟨0, 0, 0⟩ }) =
      some [{ color := "blue", size := ⟨1, 1, 1⟩, center := ⟨0, 0, 6/5⟩,
              is_moving := true, movement := ⟨0, 0, 1/10⟩ },
            { color := "blue", size := ⟨1, 1, 1⟩, center := ⟨0, 0, 11/5⟩,
              is_moving := true, movement := ⟨0, 0, 1/10⟩ }]) ∧
    (mbbGo 4
      [{ color := "blue", size := ⟨1, 1, 1⟩, center := ⟨0, 0, 6/5⟩,
         is_moving := true, movement := ⟨0, 0, 1/10⟩ },
       { color := "blue", size := ⟨1, 1, 1⟩, center := ⟨0, 0, 11/5⟩,
         is_moving := true, movement := ⟨0, 0, 1/10⟩ }]
      (Pusher.red { color := "red", size := ⟨1, 7/5, 7/5⟩, center := ⟨0, -1/5, 0⟩,
                    is_moving := false, movement := ⟨0, 0, 0⟩ }) =
      some [{ color := "blue", size := ⟨1, 1, 1⟩, center := ⟨0, 0, 13/10⟩,
              is_moving := true, movement := ⟨0, 0, 1/10⟩ },
            { color := "blue", size := ⟨1, 1, 1⟩, center := ⟨0, 0, 23/10⟩,
              is_moving := true, movement := ⟨0, 0, 1/10⟩ }]) ∧
    (mbbGo 4
      [{ color := "blue", size := ⟨1, 1, 1⟩, center := ⟨0, 0, 19/10⟩,
         is_moving := true, movement := ⟨0, 0, 1/10⟩ },
       { color := "blue", size := ⟨1, 1, 1⟩, center := ⟨0, 0, 29/10⟩,
         is_moving := true, movement := ⟨0, 0, 1/10⟩ }]
      (Pusher.red { color := "red", size := ⟨1, 3, 14/5⟩, center := ⟨0, -1, 0⟩,
                    is_moving := false, movement := ⟨0, 0, 0⟩ }) =
      some [{ color := "blue", size := ⟨1, 1, 1⟩, center := ⟨0, 0, 2⟩,
              is_moving := false, movement := ⟨0, 0, 0⟩ },
            { color := "blue", size := ⟨1, 1, 1⟩, center := ⟨0, 0, 3⟩,
              is_moving := false, movement := ⟨0, 0, 0⟩ }]) := by
  refine ⟨?_, ?_, ?_⟩ <;>
  · simp only [mbbGo]
    repeat
      rw [mbbLoop.eq_def]
      norm_num [mbbStartState, mbbStart, mbbMove, mbbStop, mbbMoveState, getPusher, pyRoundQ,
        pyRound, SCALE_SPEED, SCALE_MAX, dummyBox, List.range_succ, blue_ne_red, blue_ne_white,
        red_ne_blue, red_ne_white, white_ne_red, white_ne_blue, purple_ne_red, purple_ne_blue,
        purple_ne_white, empty_ne_red, empty_ne_blue]
    rw [mbbLoop.eq_def]

theorem mbbStart_size (pb b : Box) : (mbbStart pb b).size = b.size := by
  rw [mbbStart]
  dsimp only
  split_ifs <;> rfl

theorem mbbStart_not_stopping (pb b : Box) (h : b.is_moving = true) :
    (mbbStart pb b).is_moving = true := by
  rw [mbbStart]
  dsimp only
  split_ifs <;> simp [h]

theorem mbbStartState_length (p : Pusher) (bs : List Box) (k : Nat) :
    (mbbStartState p bs k).length = bs.length := by
  simp [mbbStartState]

theorem mbbStartState_getD_size (p : Pusher) (bs : List Box) (k j : Nat) :
    ((mbbStartState p bs k).getD j dummyBox).size = (bs.getD j dummyBox).size := by
  rw [mbbStartState]
  rw [List.set_set]
  by_cases hjk : j = k
  · subst hjk
    rcases h : bs[j]? with _ | y
    · simp [List.getD_eq_getElem?_getD, List.getElem?_set_self', h]
    · simp [List.getD_eq_getElem?_getD, List.getElem?_set_self', h, mbbStart_size]
  · rw [getD_set_ne _ _ _ (fun hkj => hjk hkj.symm)]

theorem mbbMove_size (b : Box) : (mbbMove b).size = b.size := rfl

theorem mbbStop_size (b : Box) : (mbbStop b).size = b.size := rfl

theorem mbbMoveState_length (p : Pusher) (bs : List Box) (k : Nat) :
    (mbbMoveState p bs k).length = bs.length := by
  rw [mbbMoveState]
  split <;> simp

theorem mbbMoveState_getD_size (p : Pusher) (bs : List Box) (k j : Nat) :
    ((mbbMoveState p bs k).getD j dummyBox).size = (bs.getD j dummyBox).size := by
  rw [mbbMoveState]
  have hone : ∀ (x : Box), x.size = (bs.getD k dummyBox).size →
      ((bs.set k x).getD j dummyBox).size = (bs.getD j dummyBox).size := by
    intro x hx
    by_cases hjk : j = k
    · subst hjk
      rcases h : bs[j]? with _ | y
      · simp [List.getD_eq_getElem?_getD, List.getElem?_set_self', h]
      · rw [List.getD_eq_getElem?_getD] at hx
        simp [List.getD_eq_getElem?_getD, List.getElem?_set_self', h, hx]
    · rw [getD_set_ne _ _ _ (fun hkj => hjk hkj.symm)]
  split
  · rw [List.set_set]
    exact hone _ (mbbStop_size _ ▸ mbbMove_size _)
  · exact hone _ (mbbMove_size _)

/-- Sizes are untouched by the `move_blue_box` loop: any successful run
returns a list of the same length whose boxes have, position by
position, the sizes they started with. -/
theorem mbbLoop_sizes :
    ∀ (fuel : Nat) (p : Pusher) (ks : List Nat) (bs out : List Box),
      mbbLoop fuel p bs ks = some out →
      out.length = bs.length ∧
        ∀ j, (out.getD j dummyBox).size = (bs.getD j dummyBox).size := by
  intro fuel
  induction fuel using Nat.strong_induction_on with
  | _ fuel ihf =>
    intro p ks
    induction ks generalizing p with
    | nil =>
      intro bs out h
      rw [mbbLoop.eq_def] at h
      cases h
      exact ⟨rfl, fun j => rfl⟩
    | cons k ks ihk =>
      intro bs out h
      rw [mbbLoop.eq_def] at h
      dsimp only at h
      by_cases hmv : (bs.getD k dummyBox).is_moving = false
      · rw [if_pos hmv] at h
        by_cases hst : ((mbbStartState p bs k).getD k dummyBox).is_moving = true
        · rw [if_pos hst] at h
          rcases fuel with _ | f
          · exact absurd h (by simp)
          · dsimp only at h
            rcases hinner : mbbLoop f (Pusher.blue k) (mbbStartState p bs k)
                (List.range (mbbStartState p bs k).length) with _ | bs2
            · rw [hinner] at h
              exact absurd h (by simp)
            · rw [hinner] at h
              have h1 := ihf f (Nat.lt_succ_self f) (Pusher.blue k) _ _ _ hinner
              have h2 := ihk p bs2 out h
              refine ⟨h2.1.trans (h1.1.trans (mbbStartState_length p bs k)), fun j => ?_⟩
              rw [h2.2 j, h1.2 j, mbbStartState_getD_size]
        · rw [if_neg hst] at h
          have h2 := ihk p _ out h
          refine ⟨h2.1.trans (mbbStartState_length p bs k), fun j => ?_⟩
          rw [h2.2 j, mbbStartState_getD_size]
      · rw [if_neg hmv] at h
        have h2 := ihk p _ out h
        refine ⟨h2.1.trans (mbbMoveState_length p bs k), fun j => ?_⟩
        rw [h2.2 j, mbbMoveState_getD_size]

/-- The size values reachable by the growth and shrink animations: 1
plus a natural multiple of `SCALE_SPEED`. -/
def gridSize (q : ℚ) : Prop := ∃ k : ℕ, q = 1 + SCALE_SPEED * k

/-- The size invariant behind C7, over every box of a world. -/
def sizeInv (w : World) : Prop :=
  ∀ b ∈ allBoxes w, gridSize b.size.x ∧ gridSize b.size.y ∧ gridSize b.size.z

theorem gridSize_one : gridSize 1 := ⟨0, by norm_num⟩

theorem gridSize_one_le {q : ℚ} (h : gridSize q) : 1 ≤ q := by
  rcases h with ⟨k, rfl⟩
  have hk : (0 : ℚ) ≤ k := Nat.cast_nonneg k
  rw [SCALE_SPEED]
  linarith

theorem gridSize_add {q : ℚ} (h : gridSize q) : gridSize (q + SCALE_SPEED) := by
  rcases h with ⟨k, rfl⟩
  exact ⟨k + 1, by push_cast; ring⟩

theorem gridSize_sub {q : ℚ} (h : gridSize q) (h1 : 1 < q) : gridSize (q - SCALE_SPEED) := by
  rcases h with ⟨k, rfl⟩
  rcases k with _ | m
  · exfalso
    rw [SCALE_SPEED] at h1
    norm_num at h1
  · exact ⟨m, by push_cast; ring⟩

theorem gridSize_nat {n : ℕ} (h : 1 ≤ n) : gridSize (n : ℚ) := by
  refine ⟨5 * (n - 1), ?_⟩
  rw [SCALE_SPEED]
  push_cast [Nat.cast_sub h]
  ring

theorem dummyBox_grid : gridSize dummyBox.size.x ∧ gridSize dummyBox.size.y ∧
    gridSize dummyBox.size.z :=
  ⟨gridSize_one, gridSize_one, gridSize_one⟩

theorem mem_allBoxes_base (w : World) : w.base ∈ allBoxes w := by
  simp [allBoxes]

theorem mem_allBoxes_reds (w : World) {b : Box} (hb : b ∈ w.reds) : b ∈ allBoxes w := by
  simp [allBoxes, hb]

theorem mem_allBoxes_blues (w : World) {b : Box} (hb : b ∈ w.blues) : b ∈ allBoxes w := by
  simp [allBoxes, hb]

theorem sizeInv_getD_reds {w : World} (h : sizeInv w) (i : Nat) :
    gridSize (w.reds.getD i dummyBox).size.x ∧ gridSize (w.reds.getD i dummyBox).size.y ∧
      gridSize (w.reds.getD i dummyBox).size.z := by
  rcases Nat.lt_or_ge i w.reds.length with hi | hi
  · rw [List.getD_eq_getElem?_getD, List.getElem?_eq_getElem hi, Option.getD_some]
    exact h _ (mem_allBoxes_reds w (w.reds.getElem_mem hi))
  · rw [List.getD_eq_getElem?_getD, List.getElem?_eq_none (by simpa using hi), Option.getD_none]
    exact dummyBox_grid

theorem sizeInv_getD_blues {w : World} (h : sizeInv w) (i : Nat) :
    gridSize (w.blues.getD i dummyBox).size.x ∧ gridSize (w.blues.getD i dummyBox).size.y ∧
      gridSize (w.blues.getD i dummyBox).size.z := by
  rcases Nat.lt_or_ge i w.blues.length with hi | hi
  · rw [List.getD_eq_getElem?_getD, List.getElem?_eq_getElem hi, Option.getD_some]
    exact h _ (mem_allBoxes_blues w (w.blues.getElem_mem hi))
  · rw [List.getD_eq_getElem?_getD, List.getElem?_eq_none (by simpa using hi), Option.getD_none]
    exact dummyBox_grid

theorem levelBoxes_size {level : List (List Char)} {bx bz : ℕ} {c : Char} {col : String}
    {b : Box} (hb : b ∈ levelBoxes level bx bz c col) : b.size = ⟨1, 1, 1⟩ := by
  rw [levelBoxes] at hb
  rcases List.mem_flatten.mp hb with ⟨row, hrow, hbrow⟩
  rcases List.mem_map.mp hrow with ⟨ir, _, rfl⟩
  rcases List.mem_filterMap.mp hbrow with ⟨jc, _, hjc⟩
  by_cases hc : jc.2 = c
  · rw [if_pos hc] at hjc
    cases hjc
    rfl
  · rw [if_neg hc] at hjc
    exact absurd hjc (by simp)

/-- The initial world built by `create_level` satisfies the size
invariant, provided the base plate has positive integer dimensions (the
game always uses 9 by 9). -/
theorem create_level_sizeInv (level : List (List Char)) (bx bz : ℕ)
    (hbx : 1 ≤ bx) (hbz : 1 ≤ bz) : sizeInv (create_level level bx bz) := by
  intro b hb
  simp only [allBoxes, create_level, List.mem_cons, List.mem_append] at hb
  rcases hb with rfl | (((hb | hb) | hb) | hb)
  · exact ⟨gridSize_nat hbx, gridSize_one, gridSize_nat hbz⟩
  all_goals
    rw [levelBoxes_size hb]
    exact ⟨gridSize_one, gridSize_one, gridSize_one⟩

theorem red_box_interaction_allBoxes (w : World) (bc : List Box) :
    allBoxes (red_box_interaction w bc) = allBoxes w := by
  rw [red_box_interaction]
  dsimp only
  split_ifs <;> rfl

theorem detect_win_blues_sizeInv {w : World} (h : sizeInv w) :
    sizeInv { w with blues := detect_win_blues w } := by
  intro b hb
  simp only [allBoxes, List.mem_cons, List.mem_append] at hb
  rcases hb with rfl | (((hb | hb) | hb) | hb)
  · exact h _ (mem_allBoxes_base w)
  · exact h _ (by simp [allBoxes, hb])
  · exact h _ (by simp [allBoxes, hb])
  · rw [detect_win_blues] at hb
    rcases List.mem_map.mp hb with ⟨b0, hb0, rfl⟩
    have hsz : (if w.greens.any (fun g => b0.center = g.center) then
        { b0 with color := "purple" } else b0).size = b0.size := by
      split <;> rfl
    rw [hsz]
    exact h _ (mem_allBoxes_blues w hb0)
  · exact h _ (by simp [allBoxes, hb])

theorem scale_points_grid {b : Box} (sp : Vec3)
    (hb : gridSize b.size.x ∧ gridSize b.size.y ∧ gridSize b.size.z)
    (hx : sp.x = SCALE_SPEED ∨ sp.x = 0 ∨ (sp.x = -SCALE_SPEED ∧ 1 < b.size.x))
    (hy : sp.y = SCALE_SPEED ∨ sp.y = 0 ∨ (sp.y = -SCALE_SPEED ∧ 1 < b.size.y))
    (hz : sp.z = SCALE_SPEED ∨ sp.z = 0 ∨ (sp.z = -SCALE_SPEED ∧ 1 < b.size.z)) :
    gridSize (scale_points b sp).size.x ∧ gridSize (scale_points b sp).size.y ∧
      gridSize (scale_points b sp).size.z := by
  rw [scale_points]
  refine ⟨?_, ?_, ?_⟩
  · rcases hx with h | h | ⟨h, h1⟩
    · rw [h]; exact gridSize_add hb.1
    · rw [h, add_zero]; exact hb.1
    · rw [h]
      have := gridSize_sub hb.1 h1
      rw [sub_eq_add_neg] at this
      exact this
  · rcases hy with h | h | ⟨h, h1⟩
    · rw [h]; exact gridSize_add hb.2.1
    · rw [h, add_zero]; exact hb.2.1
    · rw [h]
      have := gridSize_sub hb.2.1 h1
      rw [sub_eq_add_neg] at this
      exact this
  · rcases hz with h | h | ⟨h, h1⟩
    · rw [h]; exact gridSize_add hb.2.2
    · rw [h, add_zero]; exact hb.2.2
    · rw [h]
      have := gridSize_sub hb.2.2 h1
      rw [sub_eq_add_neg] at this
      exact this

theorem sizeInv_set_reds {w : World} (h : sizeInv w) {x : Box} (i : Nat)
    (hx : gridSize x.size.x ∧ gridSize x.size.y ∧ gridSize x.size.z) :
    ∀ b ∈ w.reds.set i x, gridSize b.size.x ∧ gridSize b.size.y ∧ gridSize b.size.z := by
  intro b hb
  rcases List.mem_or_eq_of_mem_set hb with hb' | rfl
  · exact h _ (mem_allBoxes_reds w hb')
  · exact hx

theorem scale_red_box_sizeInv {w : World} (d : Directions) (h : sizeInv w) :
    sizeInv (scale_red_box w d) := by
  rw [scale_red_box]
  rcases hi : w.scaled_up_red_box with _ | i
  · exact h
  · dsimp only
    split
    · have hgrow : ∀ b ∈ w.reds.set i
          (scale_points (w.reds.getD i dummyBox)
            ⟨if d.d0 then SCALE_SPEED else 0, SCALE_SPEED, if d.d2 then SCALE_SPEED else 0⟩),
          gridSize b.size.x ∧ gridSize b.size.y ∧ gridSize b.size.z := by
        refine sizeInv_set_reds h i (scale_points_grid _ (sizeInv_getD_reds h i) ?_ ?_ ?_)
        · dsimp only; split <;> simp
        · simp
        · dsimp only; split <;> simp
      rcases hp : w.previously_scaled_up_red_box with _ | j
      · dsimp only
        intro b hb
        simp only [allBoxes, List.mem_cons, List.mem_append] at hb
        rcases hb with rfl | (((hb | hb) | hb) | hb)
        · exact h _ (mem_allBoxes_base w)
        · exact hgrow _ hb
        all_goals exact h _ (by simp [allBoxes, hb])
      · dsimp only
        intro b hb
        simp only [allBoxes, List.mem_cons, List.mem_append] at hb
        rcases hb with rfl | (((hb | hb) | hb) | hb)
        · exact h _ (mem_allBoxes_base w)
        · rcases List.mem_or_eq_of_mem_set hb with hb' | rfl
          · exact hgrow _ hb'
          · set reds1 := w.reds.set i
              (scale_points (w.reds.getD i dummyBox)
                ⟨if d.d0 then SCALE_SPEED else 0, SCALE_SPEED,
                 if d.d2 then SCALE_SPEED else 0⟩) with hreds1
            have hpb : gridSize (reds1.getD j dummyBox).size.x ∧
                gridSize (reds1.getD j dummyBox).size.y ∧
                gridSize (reds1.getD j dummyBox).size.z := by
              rcases Nat.lt_or_ge j reds1.length with hj | hj
              · rw [List.getD_eq_getElem?_getD, List.getElem?_eq_getElem hj, Option.getD_some]
                exact hgrow _ (reds1.getElem_mem hj)
              · rw [List.getD_eq_getElem?_getD, List.getElem?_eq_none (by simpa using hj),
                  Option.getD_none]
                exact dummyBox_grid
            refine scale_points_grid _ hpb ?_ ?_ ?_
            · dsimp only; split
              · right; right; constructor
                · rfl
                · assumption
              · simp
            · dsimp only; split
              · right; right; constructor
                · rfl
                · assumption
              · simp
            · dsimp only; split
              · right; right; constructor
                · rfl
                · assumption
              · simp
        all_goals exact h _ (by simp [allBoxes, hb])
    · exact h

theorem mbbGo_sizes {fuel : Nat} {bs out : List Box} {p : Pusher}
    (h : mbbGo fuel bs p = some out) :
    out.length = bs.length ∧
      ∀ j, (out.getD j dummyBox).size = (bs.getD j dummyBox).size := by
  rcases fuel with _ | f
  · exact absurd h (by rw [mbbGo]; simp)
  · exact mbbLoop_sizes f p (List.range bs.length) bs out h

theorem frame_step_sizeInv {piQ : ℚ} {fuel : Nat} {w w' : World} (h : sizeInv w)
    (hs : frame_step piQ fuel w = some w') : sizeInv w' := by
  rw [frame_step] at hs
  dsimp only at hs
  split at hs
  · split at hs
    · exact absurd hs (by simp)
    · split at hs
      · split at hs
        · exact absurd hs (by simp)
        · rename_i i _ _ _ _ _ _ _ _ blues' hblues
          injection hs with hs
          subst hs
          refine scale_red_box_sizeInv _ ?_
          intro b hb
          simp only [allBoxes, List.mem_cons, List.mem_append] at hb
          rcases hb with rfl | (((hb | hb) | hb) | hb)
          · exact h _ (mem_allBoxes_base w)
          · exact h _ (by simp [allBoxes, hb])
          · exact h _ (by simp [allBoxes, hb])
          · rcases List.mem_iff_getElem.mp hb with ⟨j, hj, rfl⟩
            have hsz := (mbbGo_sizes hblues).2 j
            rw [List.getD_eq_getElem?_getD, List.getElem?_eq_getElem hj, Option.getD_some] at hsz
            have hgd := sizeInv_getD_blues h j
            rw [hsz]
            exact hgd
          · exact h _ (by simp [allBoxes, hb])
      · exact absurd hs (by simp)
  · injection hs with hs
    subst hs
    exact fun b hb => h b hb

theorem step_sizeInv {piQ : ℚ} {w w' : World} (hs : Step piQ w w') (h : sizeInv w) :
    sizeInv w' := by
  cases hs with
  | frame fuel hf =>
    exact frame_step_sizeInv (detect_win_blues_sizeInv h) hf
  | click bc w =>
    intro b hb
    rw [red_box_interaction_allBoxes] at hb
    exact h b hb
  | pan a pb w =>
    intro b hb
    exact h b hb

/-- C7: in every world reachable from a level start (whose base plate
has positive integer dimensions, as the game's 9 by 9 always does),
every box — the base and all four collections — has all three size
components at least 1: every size component is 1 plus a natural
multiple of `SCALE_SPEED`, and the shrink step only subtracts
`SCALE_SPEED` from components strictly above 1, so it stops exactly at
1 and never goes below. -/
theorem reachable_box_sizes_ge_one (piQ : ℚ) (level : List (List Char)) (bx bz : ℕ)
    (hbx : 1 ≤ bx) (hbz : 1 ≤ bz) (w : World)
    (hr : ReachableFrom piQ (create_level level bx bz) w) :
    ∀ b ∈ allBoxes w, 1 ≤ b.size.x ∧ 1 ≤ b.size.y ∧ 1 ≤ b.size.z := by
  have hinv : sizeInv w := by
    induction hr with
    | refl => exact create_level_sizeInv level bx bz hbx hbz
    | step _ hs ih => exact step_sizeInv hs ih
  intro b hb
  rcases hinv b hb with ⟨h1, h2, h3⟩
  exact ⟨gridSize_one_le h1, gridSize_one_le h2, gridSize_one_le h3⟩

/-- C7 (witness): the invariant applied at the freshly created one-red
level on a 9 by 9 base: the base plate's size is at least 1 in x. -/
theorem reachable_box_sizes_ge_one_witness :
    1 ≤ ((create_level [['r']] 9 9).base).size.x :=
  (reachable_box_sizes_ge_one 3 [['r']] 9 9 (by norm_num) (by norm_num)
    (create_level [['r']] 9 9) ReachableFrom.refl
    (create_level [['r']] 9 9).base (mem_allBoxes_base _)).1

/-- The number of not-yet-moving boxes of the blue collection; the
chained-push recursion only descends into a box that has just left this
count. -/
def notMovingCount (bs : List Box) : Nat :=
  bs.countP (fun b => !b.is_moving)

theorem countP_set (p : Box → Bool) :
    ∀ (bs : List Box) (k : Nat) (x : Box), k < bs.length →
      (bs.set k x).countP p =
        bs.countP p - (if p (bs.getD k dummyBox) then 1 else 0) + (if p x then 1 else 0) := by
  intro bs
  induction bs with
  | nil => intro k x hk; simp at hk
  | cons a t ih =>
    intro k x hk
    rcases k with _ | k
    · simp only [List.set_cons_zero, List.countP_cons, List.getD_cons_zero]
      have := t.countP_le_length p
      split_ifs <;> omega
    · simp only [List.set_cons_succ, List.countP_cons, List.getD_cons_succ]
      rw [ih k x (by simpa using hk)]
      have hle : (if p (t.getD k dummyBox) then 1 else 0) ≤ t.countP p := by
        split_ifs with hp
        · have hkt : k < t.length := by simpa using hk
          refine List.countP_pos.mpr ⟨t.getD k dummyBox, ?_, hp⟩
          rw [List.getD_eq_getElem?_getD, List.getElem?_eq_getElem hkt, Option.getD_some]
          exact t.getElem_mem hkt
        · omega
      split_ifs at hle ⊢ <;> omega

theorem getD_moving_lt {bs : List Box} {i : Nat}
    (h : (bs.getD i dummyBox).is_moving = true) : i < bs.length := by
  by_contra hge
  rw [List.getD_eq_getElem?_getD, List.getElem?_eq_none (by omega), Option.getD_none] at h
  exact absurd h (by rw [dummyBox]; simp)

theorem sizes_lt_transport {bs out : List Box} (hlen : out.length = bs.length)
    (hsz : ∀ j, (out.getD j dummyBox).size = (bs.getD j dummyBox).size)
    (h : ∀ b ∈ bs, b.size.y < SCALE_MAX) : ∀ b ∈ out, b.size.y < SCALE_MAX := by
  intro b hb
  rcases List.mem_iff_getElem.mp hb with ⟨j, hj, rfl⟩
  have hj' : j < bs.length := hlen ▸ hj
  have hd := hsz j
  rw [List.getD_eq_getElem?_getD, List.getElem?_eq_getElem hj, Option.getD_some,
    List.getD_eq_getElem?_getD, List.getElem?_eq_getElem hj', Option.getD_some] at hd
  rw [hd]
  exact h _ (bs.getElem_mem hj')

theorem mbbStartState_getD_ne (p : Pusher) (bs : List Box) (k j : Nat) (hjk : j ≠ k) :
    (mbbStartState p bs k).getD j dummyBox = bs.getD j dummyBox := by
  rw [mbbStartState]
  rw [List.set_set]
  exact getD_set_ne _ _ _ (fun h => hjk h.symm)

theorem mbbStartState_getD_self (p : Pusher) (bs : List Box) (k : Nat) (hk : k < bs.length) :
    (mbbStartState p bs k).getD k dummyBox =
      mbbStart (getPusher (bs.set k { bs.getD k dummyBox with color := "blue" }) p)
        { bs.getD k dummyBox with color := "blue" } := by
  rw [mbbStartState]
  rw [List.set_set]
  exact getD_set_self _ _ _ hk

theorem mbbStartState_eq_set (p : Pusher) (bs : List Box) (k : Nat) :
    mbbStartState p bs k =
      bs.set k (mbbStart (getPusher (bs.set k { bs.getD k dummyBox with color := "blue" }) p)
        { bs.getD k dummyBox with color := "blue" }) := by
  rw [mbbStartState, List.set_set]

theorem mbbStartState_movers (p : Pusher) (bs : List Box) (k : Nat)
    (hk : (bs.getD k dummyBox).is_moving = false) :
    ∀ j, (bs.getD j dummyBox).is_moving = true →
      ((mbbStartState p bs k).getD j dummyBox).is_moving = true := by
  intro j hj
  have hjk : j ≠ k := fun h => by rw [h, hk] at hj; cases hj
  rw [mbbStartState_getD_ne p bs k j hjk]
  exact hj

theorem mbbStartState_count_started (p : Pusher) (bs : List Box) (k : Nat)
    (hk : k < bs.length) (hmv : (bs.getD k dummyBox).is_moving = false)
    (hst : ((mbbStartState p bs k).getD k dummyBox).is_moving = true) :
    notMovingCount (mbbStartState p bs k) = notMovingCount bs - 1 ∧ 1 ≤ notMovingCount bs := by
  have hpos : 1 ≤ notMovingCount bs := by
    refine List.countP_pos.mpr ⟨bs.getD k dummyBox, ?_, by simp only [Bool.not_eq_true']; exact hmv⟩
    rw [List.getD_eq_getElem?_getD, List.getElem?_eq_getElem hk, Option.getD_some]
    exact bs.getElem_mem hk
  have hself := mbbStartState_getD_self p bs k hk
  rw [hself] at hst
  rw [mbbStartState_eq_set]
  unfold notMovingCount
  rw [countP_set _ bs k _ hk]
  rw [if_pos (by rw [List.getD_eq_getElem?_getD] at hmv; simp [hmv]),
    if_neg (fun hc => by rw [hst] at hc; exact absurd hc (by decide))]
  exact ⟨rfl, hpos⟩

theorem mbbStartState_count_not_started (p : Pusher) (bs : List Box) (k : Nat)
    (hk : k < bs.length) (hmv : (bs.getD k dummyBox).is_moving = false)
    (hst : ¬((mbbStartState p bs k).getD k dummyBox).is_moving = true) :
    notMovingCount (mbbStartState p bs k) = notMovingCount bs := by
  have hpos : 1 ≤ notMovingCount bs := by
    refine List.countP_pos.mpr ⟨bs.getD k dummyBox, ?_, by simp only [Bool.not_eq_true']; exact hmv⟩
    rw [List.getD_eq_getElem?_getD, List.getElem?_eq_getElem hk, Option.getD_some]
    exact bs.getElem_mem hk
  have hself := mbbStartState_getD_self p bs k hk
  rw [hself] at hst
  rw [mbbStartState_eq_set]
  unfold notMovingCount
  rw [countP_set _ bs k _ hk]
  rw [if_pos (by rw [List.getD_eq_getElem?_getD] at hmv; simp [hmv]),
    if_pos (by simpa using hst)]
  unfold notMovingCount at hpos
  omega

theorem mbbMove_is_moving (b : Box) : (mbbMove b).is_moving = b.is_moving := rfl

theorem mbbMoveState_no_stop (p : Pusher) (bs : List Box) (k : Nat)
    (hmvp : (getPusher (bs.set k (mbbMove (bs.getD k dummyBox))) p).is_moving = true)
    (hszp : (getPusher (bs.set k (mbbMove (bs.getD k dummyBox))) p).size.y < SCALE_MAX) :
    mbbMoveState p bs k = bs.set k (mbbMove (bs.getD k dummyBox)) := by
  rw [mbbMoveState]
  rw [if_neg]
  rintro (h | ⟨_, h⟩)
  · exact absurd hszp (by linarith)
  · rw [hmvp] at h
    cases h

/-- While the pusher is a moving blue box, in a blue collection whose
sizes in y are all below `SCALE_MAX`, the `move_blue_box` loop never
stops a box: movers stay moving, the not-moving count never grows, and
a nesting budget of the not-moving count suffices. -/
theorem mbbLoop_blue_progress :
    ∀ (fuel : Nat) (i : Nat) (ks : List Nat) (bs : List Box),
      (∀ k ∈ ks, k < bs.length) →
      (∀ b ∈ bs, b.size.y < SCALE_MAX) →
      (bs.getD i dummyBox).is_moving = true →
      notMovingCount bs ≤ fuel →
      ∃ out, mbbLoop fuel (Pusher.blue i) bs ks = some out ∧
        (∀ j, (bs.getD j dummyBox).is_moving = true →
          (out.getD j dummyBox).is_moving = true) ∧
        notMovingCount out ≤ notMovingCount bs := by
  intro fuel
  induction fuel using Nat.strong_induction_on with
  | _ fuel ihf =>
    intro i ks
    induction ks generalizing i with
    | nil =>
      intro bs _ _ _ _
      rw [mbbLoop.eq_def]
      exact ⟨bs, rfl, fun j h => h, le_refl _⟩
    | cons k ks ihk =>
      intro bs hks hsz hpm hM
      have hk : k < bs.length := hks k (List.mem_cons_self k ks)
      rw [mbbLoop.eq_def]
      dsimp only
      by_cases hmv : (bs.getD k dummyBox).is_moving = false
      · rw [if_pos hmv]
        by_cases hst : ((mbbStartState (Pusher.blue i) bs k).getD k dummyBox).is_moving = true
        · rw [if_pos hst]
          have hcnt := mbbStartState_count_started (Pusher.blue i) bs k hk hmv hst
          rcases fuel with _ | f
          · omega
          · dsimp only
            have hlen1 : (mbbStartState (Pusher.blue i) bs k).length = bs.length :=
              mbbStartState_length _ bs k
            have hsz1 : ∀ b ∈ mbbStartState (Pusher.blue i) bs k, b.size.y < SCALE_MAX :=
              sizes_lt_transport hlen1 (fun j => mbbStartState_getD_size _ bs k j) hsz
            have hmv1 : ∀ j, (bs.getD j dummyBox).is_moving = true →
                ((mbbStartState (Pusher.blue i) bs k).getD j dummyBox).is_moving = true :=
              mbbStartState_movers _ bs k hmv
            have hinner := ihf f (Nat.lt_succ_self f) k
              (List.range (mbbStartState (Pusher.blue i) bs k).length)
              (mbbStartState (Pusher.blue i) bs k)
              (fun k' hk' => List.mem_range.mp hk') hsz1 hst (by omega)
            rcases hinner with ⟨out1, hout1, hmvout1, hMout1⟩
            rw [hout1]
            dsimp only
            have hlenout1 : out1.length = (mbbStartState (Pusher.blue i) bs k).length :=
              (mbbLoop_sizes f (Pusher.blue k) _ _ out1 hout1).1
            have hszout1 : ∀ b ∈ out1, b.size.y < SCALE_MAX :=
              sizes_lt_transport hlenout1
                (mbbLoop_sizes f (Pusher.blue k) _ _ out1 hout1).2 hsz1
            have hcont := ihk i out1
              (fun k' hk' => by
                rw [hlenout1, hlen1]
                exact hks k' (List.mem_cons_of_mem k hk'))
              hszout1 (hmvout1 i (hmv1 i hpm)) (by omega)
            rcases hcont with ⟨out, hout, hmvout, hMout⟩
            refine ⟨out, hout, ?_, by omega⟩
            intro j hj
            exact hmvout j (hmvout1 j (hmv1 j hj))
        · rw [if_neg hst]
          have hcnt := mbbStartState_count_not_started (Pusher.blue i) bs k hk hmv hst
          have hlen1 : (mbbStartState (Pusher.blue i) bs k).length = bs.length :=
            mbbStartState_length _ bs k
          have hsz1 : ∀ b ∈ mbbStartState (Pusher.blue i) bs k, b.size.y < SCALE_MAX :=
            sizes_lt_transport hlen1 (fun j => mbbStartState_getD_size _ bs k j) hsz
          have hmv1 := mbbStartState_movers (Pusher.blue i) bs k hmv
          have hcont := ihk i (mbbStartState (Pusher.blue i) bs k)
            (fun k' hk' => by rw [hlen1]; exact hks k' (List.mem_cons_of_mem k hk'))
            hsz1 (hmv1 i hpm) (by omega)
          rcases hcont with ⟨out, hout, hmvout, hMout⟩
          refine ⟨out, hout, ?_, by omega⟩
          intro j hj
          exact hmvout j (hmv1 j hj)
      · rw [if_neg hmv]
        have hbmv : (bs.getD k dummyBox).is_moving = true := by
          cases h2 : (bs.getD k dummyBox).is_moving
          · exact absurd h2 hmv
          · rfl
        have hilt : i < bs.length := getD_moving_lt hpm
        have hpb_mv : ((bs.set k (mbbMove (bs.getD k dummyBox))).getD i dummyBox).is_moving =
            true := by
          by_cases hik : i = k
          · subst hik
            rw [getD_set_self _ _ _ hilt, mbbMove_is_moving]
            exact hbmv
          · rw [getD_set_ne _ _ _ (fun h => hik h.symm)]
            exact hpm
        have hpb_sz : ((bs.set k (mbbMove (bs.getD k dummyBox))).getD i dummyBox).size.y <
            SCALE_MAX := by
          have hmem : ∀ j, j < bs.length → (bs.getD j dummyBox).size.y < SCALE_MAX := by
            intro j hj
            rw [List.getD_eq_getElem?_getD, List.getElem?_eq_getElem hj, Option.getD_some]
            exact hsz _ (bs.getElem_mem hj)
          by_cases hik : i = k
          · subst hik
            rw [getD_set_self _ _ _ hilt]
            have : (mbbMove (bs.getD i dummyBox)).size = (bs.getD i dummyBox).size :=
              mbbMove_size _
            rw [this]
            exact hmem i hilt
          · rw [getD_set_ne _ _ _ (fun h => hik h.symm)]
            exact hmem i hilt
        have hstop := mbbMoveState_no_stop (Pusher.blue i) bs k hpb_mv hpb_sz
        rw [hstop]
        have hlen1 : (bs.set k (mbbMove (bs.getD k dummyBox))).length = bs.length := by simp
        have hsz1 : ∀ b ∈ bs.set k (mbbMove (bs.getD k dummyBox)), b.size.y < SCALE_MAX := by
          refine sizes_lt_transport hlen1 (fun j => ?_) hsz
          rw [← hstop]
          exact mbbMoveState_getD_size _ bs k j
        have hmv1 : ∀ j, (bs.getD j dummyBox).is_moving = true →
            ((bs.set k (mbbMove (bs.getD k dummyBox))).getD j dummyBox).is_moving = true := by
          intro j hj
          by_cases hjk : j = k
          · subst hjk
            rw [getD_set_self _ _ _ hk, mbbMove_is_moving]
            exact hj
          · rw [getD_set_ne _ _ _ (fun h => hjk h.symm)]
            exact hj
        have hcount1 : notMovingCount (bs.set k (mbbMove (bs.getD k dummyBox))) =
            notMovingCount bs := by
          unfold notMovingCount
          rw [countP_set _ bs k _ hk]
          have hbmv' : (bs[k]?.getD dummyBox).is_moving = true := by
            rw [← List.getD_eq_getElem?_getD]
            exact hbmv
          rw [if_neg (by simp [hbmv']), if_neg (by simp [mbbMove_is_moving, hbmv'])]
          omega
        have hcont := ihk i (bs.set k (mbbMove (bs.getD k dummyBox)))
          (fun k' hk' => by rw [hlen1]; exact hks k' (List.mem_cons_of_mem k hk'))
          hsz1 hpb_mv (by omega)
        rcases hcont with ⟨out, hout, hmvout, hMout⟩
        refine ⟨out, hout, ?_, by omega⟩
        intro j hj
        exact hmvout j (hmv1 j hj)

/-- With any pusher, a blue collection of sizes in y below `SCALE_MAX`
and a fuel budget of at least the collection's length, the
`move_blue_box` loop finishes. -/
theorem mbbLoop_top_progress :
    ∀ (fuel : Nat) (p : Pusher) (ks : List Nat) (bs : List Box),
      (∀ k ∈ ks, k < bs.length) →
      (∀ b ∈ bs, b.size.y < SCALE_MAX) →
      bs.length ≤ fuel →
      ∃ out, mbbLoop fuel p bs ks = some out := by
  intro fuel p ks
  induction ks generalizing p with
  | nil =>
    intro bs _ _ _
    rw [mbbLoop.eq_def]
    exact ⟨bs, rfl⟩
  | cons k ks ihk =>
    intro bs hks hsz hfuel
    have hk : k < bs.length := hks k (List.mem_cons_self k ks)
    rw [mbbLoop.eq_def]
    dsimp only
    by_cases hmv : (bs.getD k dummyBox).is_moving = false
    · rw [if_pos hmv]
      by_cases hst : ((mbbStartState p bs k).getD k dummyBox).is_moving = true
      · rw [if_pos hst]
        have hcnt := mbbStartState_count_started p bs k hk hmv hst
        have hMle : notMovingCount bs ≤ bs.length := bs.countP_le_length _
        rcases fuel with _ | f
        · omega
        · dsimp only
          have hlen1 : (mbbStartState p bs k).length = bs.length :=
            mbbStartState_length _ bs k
          have hsz1 : ∀ b ∈ mbbStartState p bs k, b.size.y < SCALE_MAX :=
            sizes_lt_transport hlen1 (fun j => mbbStartState_getD_size _ bs k j) hsz
          have hinner := mbbLoop_blue_progress f k
            (List.range (mbbStartState p bs k).length) (mbbStartState p bs k)
            (fun k' hk' => List.mem_range.mp hk') hsz1 hst (by omega)
          rcases hinner with ⟨out1, hout1, _, _⟩
          rw [hout1]
          dsimp only
          have hlenout1 : out1.length = (mbbStartState p bs k).length :=
            (mbbLoop_sizes f (Pusher.blue k) _ _ out1 hout1).1
          have hszout1 : ∀ b ∈ out1, b.size.y < SCALE_MAX :=
            sizes_lt_transport hlenout1 (mbbLoop_sizes f (Pusher.blue k) _ _ out1 hout1).2 hsz1
          exact ihk p out1
            (fun k' hk' => by
              rw [hlenout1, hlen1]
              exact hks k' (List.mem_cons_of_mem k hk'))
            hszout1 (by rw [hlenout1, hlen1]; exact hfuel)
      · rw [if_neg hst]
        have hlen1 : (mbbStartState p bs k).length = bs.length := mbbStartState_length _ bs k
        have hsz1 : ∀ b ∈ mbbStartState p bs k, b.size.y < SCALE_MAX :=
          sizes_lt_transport hlen1 (fun j => mbbStartState_getD_size _ bs k j) hsz
        exact ihk p (mbbStartState p bs k)
          (fun k' hk' => by rw [hlen1]; exact hks k' (List.mem_cons_of_mem k hk'))
          hsz1 (by rw [hlen1]; exact hfuel)
    · rw [if_neg hmv]
      have hlen1 : (mbbMoveState p bs k).length = bs.length := mbbMoveState_length _ bs k
      have hsz1 : ∀ b ∈ mbbMoveState p bs k, b.size.y < SCALE_MAX :=
        sizes_lt_transport hlen1 (fun j => mbbMoveState_getD_size _ bs k j) hsz
      exact ihk p (mbbMoveState p bs k)
        (fun k' hk' => by rw [hlen1]; exact hks k' (List.mem_cons_of_mem k hk'))
        hsz1 (by rw [hlen1]; exact hfuel)

/-- Claim C9: push propagation terminates. `mbbGo` embeds `move_blue_box`
(src/main.py lines 596-651) with an explicit bound `fuel` on the nesting
depth of recursive calls; a result `some out` certifies the Python
recursion reaches a depth within that bound. A budget of the number of
blue boxes suffices (the extra `+ 1` only pays for the outermost call):
a recursive call is made only for a box newly transitioned from
not-moving to moving, and as long as every blue box's y size is below
`SCALE_MAX` — true in every world the game builds, since blue boxes are
created as unit cubes and never rescaled — no blue box is ever stopped
within the frame, so the count of not-moving boxes strictly decreases
before each nested call and a moving box is never recursed on again. -/
theorem move_blue_box_terminates (bs : List Box) (p : Pusher)
    (hsz : ∀ b ∈ bs, b.size.y < SCALE_MAX) :
    ∃ out, mbbGo (bs.length + 1) bs p = some out := by
  obtain ⟨out, hout⟩ := mbbLoop_top_progress bs.length p (List.range bs.length) bs
    (fun k hk => List.mem_range.mp hk) hsz (le_refl _)
  exact ⟨out, hout⟩

theorem move_blue_box_terminates_witness :
    (∀ b ∈ [dummyBox], b.size.y < SCALE_MAX) ∧
      ∃ out, mbbGo ([dummyBox].length + 1) [dummyBox] (Pusher.red dummyBox) = some out := by
  have h : ∀ b ∈ [dummyBox], b.size.y < SCALE_MAX := by
    intro b hb
    rw [List.mem_singleton] at hb
    subst hb
    show (1 : ℚ) < 3
    norm_num
  exact ⟨h, move_blue_box_terminates [dummyBox] (Pusher.red dummyBox) h⟩

end GrowthMatrix
